import Mathlib

/-!
Verification development for the GTFS ingestion pipeline and schedule-resolution
engine of `Api.FreeCity.Services`.

The Python source is shallowly embedded:

* machine integers are `Int`/`Nat`; CSV cell text is `String`;
* Python `float` cell values are modelled as `Option Rat` (the parsed value, or
  `none` when the cell is missing/empty/unparseable — every such case makes the
  source skip the row, so the distinction is not observable);
* Python `set` becomes `Finset String`; Python `dict` (insertion-ordered, with
  replace-on-rewrite keeping the original position) becomes an association list;
* MongoDB collections become lists of documents; `find(filter)` becomes
  `List.filter`; the aggregation stages `$match`/`$sort`/`$limit`/`$lookup`/
  `$unwind`/`$project` become `filter`/stable sort/`take`/`flatMap`/`map`;
* Python's stable `list.sort` and Mongo's `$sort` are modelled by the stable
  `List.insertionSort`;
* fallible code returns `Option`/`Except`; a raised `HTTPException` becomes
  `Except.error` carrying the status code and detail string.
-/

/-- ASCII decimal digit test: models Python `str.isdigit` restricted to the
ASCII range (the feeds' cells are ASCII; exotic Unicode digit classes are not
modelled). -/
def isAsciiDigit (c : Char) : Bool :=
  decide ('0' ≤ c) && decide (c ≤ '9')

/-- Python `s.isdigit()`: nonempty and all digits. -/
def isDigitsStr (s : String) : Bool :=
  !s.data.isEmpty && s.data.all isAsciiDigit

/-- Python `str.strip` whitespace class (ASCII part). -/
def isPySpace (c : Char) : Bool :=
  c = ' ' || c = '\t' || c = '\n' || c = '\r' || c = '\x0b' || c = '\x0c'

/-- Python `str.strip()` on a character list. -/
def trimChars (cs : List Char) : List Char :=
  ((cs.dropWhile isPySpace).reverse.dropWhile isPySpace).reverse

/-- Numeric value of an ASCII digit character. -/
def digitVal (c : Char) : Nat :=
  c.toNat - 48

/-- Decimal value of a big-endian digit string, accumulator style (this is how
`int` evaluates a digit literal). -/
def digitsVal (cs : List Char) : Nat :=
  cs.foldl (fun a c => 10 * a + digitVal c) 0

/-- Model of Python `int(str)` on decimal literals: strips whitespace, accepts
an optional sign followed by a nonempty digit run, and fails (`ValueError`,
modelled as `none`) otherwise.  Underscore digit grouping is not modelled. -/
def pythonInt (cs : List Char) : Option Int :=
  match trimChars cs with
  | [] => none
  | c :: rest =>
    if c = '-' then
      if rest ≠ [] ∧ rest.all isAsciiDigit then some (-(digitsVal rest : Int)) else none
    else if c = '+' then
      if rest ≠ [] ∧ rest.all isAsciiDigit then some ((digitsVal rest : Int)) else none
    else if (c :: rest).all isAsciiDigit then some ((digitsVal (c :: rest) : Int)) else none

/-- Python `str.split(sep)` for a one-character separator: no collapsing of
adjacent separators, `"".split(c) = [""]`. -/
def splitOnChar (sep : Char) : List Char → List (List Char)
  | [] => [[]]
  | c :: cs =>
    if c = sep then [] :: splitOnChar sep cs
    else
      match splitOnChar sep cs with
      | [] => [[c]]
      | g :: gs => (c :: g) :: gs

/-- `gtfs/parsers.py`, `gtfs_time_to_seconds`: `"H:M:S"` → seconds.  An empty
string is rejected up front; the string is stripped, split on `':'`; exactly
three components are required, each parsed with `int` (so hours may exceed 23
and no component range check is performed); any failure yields `none`. -/
def gtfs_time_to_seconds (s : String) : Option Int :=
  if s.data.isEmpty then none
  else
    match splitOnChar ':' (trimChars s.data) with
    | [a, b, c] =>
      match pythonInt a, pythonInt b, pythonInt c with
      | some h, some m, some sec => some (h * 3600 + m * 60 + sec)
      | _, _, _ => none
    | _ => none

/-- Decimal rendering of a natural number (Python `f"{n:d}"`), via explicit
fuel so that the definition is structural and kernel-reducible. -/
def toCharsAux : Nat → Nat → List Char
  | 0, _ => []
  | fuel + 1, n =>
    if n < 10 then [Nat.digitChar n]
    else toCharsAux fuel (n / 10) ++ [Nat.digitChar (n % 10)]

/-- Decimal digit string of `n`. -/
def natToChars (n : Nat) : List Char :=
  toCharsAux (n + 1) n

/-- Python `f"{n:02d}"`: pad to at least two characters with a leading zero. -/
def padTwo (n : Nat) : List Char :=
  if n < 10 then '0' :: natToChars n else natToChars n

/-- `api/endpoints/schedule.py`, `format_seconds_to_gtfs_time`: `None` or a
negative count renders as `"00:00:00"`; otherwise hours/minutes/seconds are
rendered zero-padded, hours unbounded (no clamping, no modulo 24). -/
def format_seconds_to_gtfs_time (total_seconds : Option Int) : String :=
  match total_seconds with
  | none => "00:00:00"
  | some t =>
    if t < 0 then "00:00:00"
    else
      let n := t.toNat
      String.mk (padTwo (n / 3600) ++ (':' :: (padTwo (n % 3600 / 60) ++ (':' :: padTwo (n % 60)))))

/-! ### Calendar data model and the active-service resolver -/
/-- Persisted `calendar` document (`stream_parse_calendar`): `_id = service_id`,
seven weekday flags, `start_date` stored as start-of-day UTC and `end_date` as
end-of-day UTC.  Timestamps are modelled as `Int` (microseconds or any other
strictly monotone encoding of UTC datetimes — only their order is used). -/

structure CalendarDoc where
  service_id : String
  monday : Bool
  tuesday : Bool
  wednesday : Bool
  thursday : Bool
  friday : Bool
  saturday : Bool
  sunday : Bool
  start_date : Int
  end_date : Int
deriving DecidableEq

/-- Weekday-flag lookup in the order of the day-name list in
`get_active_service_ids` (`0 = monday .. 6 = sunday`, Python `date.weekday`). -/
def CalendarDoc.dayFlag (c : CalendarDoc) : Fin 7 → Bool
  | 0 => c.monday
  | 1 => c.tuesday
  | 2 => c.wednesday
  | 3 => c.thursday
  | 4 => c.friday
  | 5 => c.saturday
  | 6 => c.sunday

/-- Persisted `calendar_dates` document (`stream_parse_calendar_dates`):
`date` is the start-of-day UTC timestamp, `exception_type ∈ {1, 2}` as stored
(the resolver itself tolerates any integer, ignoring unknown types). -/
structure CalendarDateDoc where
  service_id : String
  date : Int
  exception_type : Int
deriving DecidableEq

/-- The `calendar` query filter of `get_active_service_ids`: matching weekday
flag, `start_date ≤` start-of-day `≤ end_date`. -/
def calendarMatches (day : Fin 7) (ts : Int) (c : CalendarDoc) : Bool :=
  c.dayFlag day && decide (c.start_date ≤ ts) && decide (ts ≤ c.end_date)

/-- One step of the exception loop in `get_active_service_ids`:
type 1 adds, type 2 discards (a no-op when absent), anything else is ignored. -/
def applyException (s : Finset String) (e : CalendarDateDoc) : Finset String :=
  if e.exception_type = 1 then insert e.service_id s
  else if e.exception_type = 2 then s.erase e.service_id
  else s

/-- `api/endpoints/schedule.py`, `get_active_service_ids`: the base set is the
service ids of all calendar documents passing `calendarMatches`; then every
`calendar_dates` document whose `date` equals the start-of-day timestamp is
applied in collection order. -/
def get_active_service_ids (cals : List CalendarDoc) (excs : List CalendarDateDoc)
    (day : Fin 7) (ts : Int) : Finset String :=
  let base := (cals.filter (calendarMatches day ts)).foldl (fun s c => insert c.service_id s) ∅
  (excs.filter (fun e => e.date = ts)).foldl applyException base

/-- The last exception record in `l` that concerns `sid` and carries a
recognised exception type; it alone decides `sid`'s final membership. -/
def lastRelevantException (sid : String) (l : List CalendarDateDoc) : Option CalendarDateDoc :=
  (l.filter (fun e => e.service_id = sid && (e.exception_type = 1 || e.exception_type = 2))).getLast?

/-! ### Persisted document types -/
/-- Empty optional text cells normalize to absent (`row.get(...) or None`). -/

def optStr (s : String) : Option String :=
  if s = "" then none else some s

/-- Python `int(s)` guarded by `s and s.isdigit()` (used for the optional
integer fields of trips and stop_times). -/
def decodeDigitField (s : String) : Option Int :=
  if s ≠ "" ∧ isDigitsStr s then pythonInt s.data else none

/-- Persisted `stops` document (`stream_parse_stops`). -/
structure StopDoc where
  stop_id : String
  stop_code : Option String
  stop_name : String
  stop_desc : Option String
  stop_lat : Rat
  stop_lon : Rat
  location : Rat × Rat
  zone_id : Option String
  stop_url : Option String
  location_type : String
  parent_station : Option String
  wheelchair_boarding : Option String
deriving DecidableEq

/-- Persisted `shapes` document (`stream_parse_shapes`): `_id = shape_id`,
coordinates are `(lat, lon)` pairs in polyline order. -/
structure ShapeDoc where
  shape_id : String
  coordinates : List (Rat × Rat)
deriving DecidableEq

/-- Persisted `routes` document (`stream_parse_trips_and_routes`). -/
structure RouteDoc where
  route_id : String
  agency_id : Option String
  route_short_name : Option String
  route_long_name : Option String
  route_desc : Option String
  route_type : Option String
  route_url : Option String
  route_color : Option String
  route_text_color : Option String
  shape_ids : List String
deriving DecidableEq

/-- Persisted `trips` document (`stream_parse_trips_and_routes`):
`_id = trip_id`. -/
structure TripDoc where
  trip_id : String
  route_id : String
  service_id : String
  trip_headsign : Option String
  direction_id : Option Int
  block_id : Option String
  shape_id : Option String
  wheelchair_accessible : Option Int
  bikes_allowed : Option Int
deriving DecidableEq

/-- Persisted `stop_times` document (`stream_parse_stop_times`): times are
seconds since midnight of the service day (may exceed 86400). -/
structure StopTimeDoc where
  trip_id : String
  arrival_time : Int
  departure_time : Int
  stop_id : String
  stop_sequence : Int
  stop_headsign : Option String
  pickup_type : Int
  drop_off_type : Int
  shape_dist_traveled : Option Rat
  timepoint : Option Int
deriving DecidableEq

/-! ### CSV row types and decoders

A CSV row is modelled with one field per GTFS column.  A `String` field is the
raw cell text (`""` both for an empty cell and for a cell absent from the row,
which Python's truthiness test treats alike); numeric cells that the source
feeds to `float`/`int` before any other use are modelled pre-parsed as
`Option`, `none` covering the missing/empty/unparseable cases that all make the
source skip the row. -/
/-- One `shapes.txt` row. -/

structure ShapeRow where
  shape_id : Option String
  shape_pt_lat : Option Rat
  shape_pt_lon : Option Rat
  shape_pt_sequence : Option Int
deriving DecidableEq

/-- The per-row validation of `stream_parse_shapes`: the row contributes the
point `(sequence, (lat, lon))` under its `shape_id` key when all four cells are
present, and is skipped individually otherwise. -/
def shapePoint (r : ShapeRow) : Option (String × Int × Rat × Rat) :=
  match r.shape_id, r.shape_pt_lat, r.shape_pt_lon, r.shape_pt_sequence with
  | some sid, some la, some lo, some sq => some (sid, sq, la, lo)
  | _, _, _, _ => none

/-- `defaultdict(list)` append: add a point to its `shape_id` group, creating
the group at the end on first use (Python dict insertion order). -/
def addPoint : List (String × List (Int × Rat × Rat)) → String → Int × Rat × Rat →
    List (String × List (Int × Rat × Rat))
  | [], sid, pt => [(sid, [pt])]
  | g :: gs, sid, pt =>
    if g.1 = sid then (g.1, g.2 ++ [pt]) :: gs else g :: addPoint gs sid pt

/-- One step of the grouping loop of `stream_parse_shapes`. -/
def groupStep (m : List (String × List (Int × Rat × Rat))) (r : ShapeRow) :
    List (String × List (Int × Rat × Rat)) :=
  match shapePoint r with
  | some (sid, pt) => addPoint m sid pt
  | none => m

/-- The grouping loop of `stream_parse_shapes`. -/
def groupShapes (rows : List ShapeRow) : List (String × List (Int × Rat × Rat)) :=
  rows.foldl groupStep []

/-- Stable ascending sort on the GTFS sequence number (Python `list.sort` with
`key=item[0]`). -/
def sortBySeq (pts : List (Int × Rat × Rat)) : List (Int × Rat × Rat) :=
  List.insertionSort (fun a b => a.1 ≤ b.1) pts

/-- `gtfs/parsers.py`, `stream_parse_shapes`: group valid points by
`shape_id`, sort each group by sequence, strip the sequence number, and emit
one document per group with a nonempty coordinate list. -/
def stream_parse_shapes (rows : List ShapeRow) : List ShapeDoc :=
  (groupShapes rows).filterMap (fun g =>
    let coordinates := (sortBySeq g.2).map (fun p => (p.2.1, p.2.2))
    if coordinates.isEmpty then none
    else some { shape_id := g.1, coordinates := coordinates })

/-- One `stops.txt` row.  `stop_name` is `Option` because its default applies
only when the column is absent (`row.get('stop_name', 'Без назви')`). -/
structure StopRow where
  stop_id : String
  stop_code : String
  stop_name : Option String
  stop_desc : String
  stop_lat : Option Rat
  stop_lon : Option Rat
  zone_id : String
  stop_url : String
  location_type : String
  parent_station : String
  wheelchair_boarding : String
deriving DecidableEq

/-- The per-row body of `stream_parse_stops`: requires truthy `stop_id` and
both coordinates, rejects coordinates outside `[-90, 90] × [-180, 180]`
(boundaries included), and builds the document; the GeoJSON point stores
`(lon, lat)`. -/
def decodeStopRow (r : StopRow) : Option StopDoc :=
  if r.stop_id = "" then none
  else
    match r.stop_lat, r.stop_lon with
    | some la, some lo =>
      if -90 ≤ la ∧ la ≤ 90 ∧ -180 ≤ lo ∧ lo ≤ 180 then
        some { stop_id := r.stop_id
               stop_code := optStr r.stop_code
               stop_name := String.mk (trimChars (r.stop_name.getD "Без назви").data)
               stop_desc := optStr r.stop_desc
               stop_lat := la
               stop_lon := lo
               location := (lo, la)
               zone_id := optStr r.zone_id
               stop_url := optStr r.stop_url
               location_type := if r.location_type = "" then "0" else r.location_type
               parent_station := optStr r.parent_station
               wheelchair_boarding := optStr r.wheelchair_boarding }
      else none
    | _, _ => none

/-- `gtfs/parsers.py`, `stream_parse_stops`: the row loop, yielding the decoded
document or skipping the row. -/
def stream_parse_stops : List StopRow → List StopDoc
  | [] => []
  | r :: rs =>
    match decodeStopRow r with
    | some d => d :: stream_parse_stops rs
    | none => stream_parse_stops rs

/-- One `routes.txt` row. -/
structure RouteRow where
  route_id : String
  agency_id : String
  route_short_name : String
  route_long_name : String
  route_desc : String
  route_type : String
  route_url : String
  route_color : String
  route_text_color : String
deriving DecidableEq

/-- One `trips.txt` row. -/
structure TripRow where
  trip_id : String
  route_id : String
  service_id : String
  trip_headsign : String
  direction_id : String
  block_id : String
  shape_id : String
  wheelchair_accessible : String
  bikes_allowed : String
deriving DecidableEq

/-- A trip row is emitted iff `trip_id`, `route_id` and `service_id` are all
truthy. -/
def validTripRow (r : TripRow) : Bool :=
  !(r.trip_id = "") && !(r.route_id = "") && !(r.service_id = "")

/-- The `trip_doc` construction of `stream_parse_trips_and_routes`:
`direction_id` is decoded only from the literal strings `'0'`/`'1'`; the
wheelchair/bikes flags only from all-digit strings; empty optional text cells
become absent. -/
def mkTripDoc (r : TripRow) : TripDoc :=
  { trip_id := r.trip_id
    route_id := r.route_id
    service_id := r.service_id
    trip_headsign := optStr r.trip_headsign
    direction_id := if r.direction_id = "0" ∨ r.direction_id = "1" then pythonInt r.direction_id.data else none
    block_id := optStr r.block_id
    shape_id := optStr r.shape_id
    wheelchair_accessible := decodeDigitField r.wheelchair_accessible
    bikes_allowed := decodeDigitField r.bikes_allowed }

/-- Python `dict` insert-or-replace keyed by the first component: replacing
keeps the entry's position, a new key goes to the end. -/
def insertReplace {α : Type} : List (String × α) → String → α → List (String × α)
  | [], k, v => [(k, v)]
  | p :: ps, k, v =>
    if p.1 = k then (k, v) :: ps else p :: insertReplace ps k v

/-- Pass 1 of `stream_parse_trips_and_routes`: build the `route_id`-keyed map
from route rows, skipping rows with an empty `route_id`. -/
def routesPass1 (rows : List RouteRow) : List (String × RouteRow) :=
  rows.foldl (fun m r => if r.route_id = "" then m else insertReplace m r.route_id r) []

/-- Python `set.add` on a set represented as a duplicate-free list (insertion
order; the order is irrelevant once sorted at finalisation). -/
def insertOnce (s : String) (l : List String) : List String :=
  if s ∈ l then l else l ++ [s]

/-- One step of pass 2 of `stream_parse_trips_and_routes`: an invalid row is
skipped; a valid row adds its shape_id to its route's set (only for nonempty
`shape_id` and a `route_id` present in the pass-1 map) and appends its trip
document. -/
def tripsStep (routeKeys : List String) (acc : (String → List String) × List TripDoc)
    (r : TripRow) : (String → List String) × List TripDoc :=
  if validTripRow r then
    ((if routeKeys.contains r.route_id ∧ r.shape_id ≠ "" then
        (fun k => if k = r.route_id then insertOnce r.shape_id (acc.1 k) else acc.1 k)
      else acc.1), acc.2 ++ [mkTripDoc r])
  else acc

/-- Pass 2 of `stream_parse_trips_and_routes`: scan trip rows, collecting each
route's shape-id set and the emitted trip documents, in row order. -/
def tripsPass (routeKeys : List String) (rows : List TripRow) :
    (String → List String) × List TripDoc :=
  rows.foldl (tripsStep routeKeys) ((fun _ => []), [])

/-- Finalisation of a route document: the shape-id set is materialised as a
sorted (and, by the set representation, deduplicated) list,
`sorted(list(route_data['shape_ids']))`. -/
def mkRouteDoc (r : RouteRow) (shapes : List String) : RouteDoc :=
  { route_id := r.route_id
    agency_id := optStr r.agency_id
    route_short_name := optStr r.route_short_name
    route_long_name := optStr r.route_long_name
    route_desc := optStr r.route_desc
    route_type := optStr r.route_type
    route_url := optStr r.route_url
    route_color := optStr r.route_color
    route_text_color := optStr r.route_text_color
    shape_ids := List.insertionSort (· ≤ ·) shapes }

/-- `gtfs/parsers.py`, `stream_parse_trips_and_routes`: two passes, then the
route documents (in pass-1 map order, each with its sorted shape-id list) and
the trip documents (in trip row order). -/
def stream_parse_trips_and_routes (routeRows : List RouteRow) (tripRows : List TripRow) :
    List RouteDoc × List TripDoc :=
  let m := routesPass1 routeRows
  let pass2 := tripsPass (m.map (·.1)) tripRows
  (m.map (fun p => mkRouteDoc p.2 (pass2.1 p.1)), pass2.2)

/-- One `stop_times.txt` row.  `stop_sequence` is pre-parsed
(`none` = missing/empty/unparseable, all of which skip the row);
`shape_dist_traveled` likewise models `float(sdt) if sdt else None`. -/
structure StopTimeRow where
  trip_id : String
  arrival_time : String
  departure_time : String
  stop_id : String
  stop_sequence : Option Int
  stop_headsign : String
  pickup_type : String
  drop_off_type : String
  shape_dist_traveled : Option Rat
  timepoint : String
deriving DecidableEq

/-- The per-row body of `stream_parse_stop_times`: requires truthy `trip_id`,
`stop_id`, `stop_sequence`, and both time cells; both times must parse;
`pickup_type`/`drop_off_type` default to `0` when not an all-digit string,
`timepoint` defaults to absent.  (`int` on an all-digit string cannot fail,
see `pythonInt_all_digits`, so `getD 0` never masks a parse failure.) -/
def mkStopTimeDoc (r : StopTimeRow) : Option StopTimeDoc :=
  if r.trip_id = "" ∨ r.stop_id = "" ∨ r.departure_time = "" ∨ r.arrival_time = "" then none
  else
    match r.stop_sequence with
    | none => none
    | some sq =>
      match gtfs_time_to_seconds r.departure_time, gtfs_time_to_seconds r.arrival_time with
      | some dep, some arr =>
        some { trip_id := r.trip_id
               arrival_time := arr
               departure_time := dep
               stop_id := r.stop_id
               stop_sequence := sq
               stop_headsign := optStr r.stop_headsign
               pickup_type := (decodeDigitField r.pickup_type).getD 0
               drop_off_type := (decodeDigitField r.drop_off_type).getD 0
               shape_dist_traveled := r.shape_dist_traveled
               timepoint := decodeDigitField r.timepoint }
      | _, _ => none

/-- `gtfs/parsers.py`, `stream_parse_stop_times`: the row loop. -/
def stream_parse_stop_times : List StopTimeRow → List StopTimeDoc
  | [] => []
  | r :: rs =>
    match mkStopTimeDoc r with
    | some d => d :: stream_parse_stop_times rs
    | none => stream_parse_stop_times rs

/-! ### Departure query engine -/
/-- The persisted store, one list per collection used by the schedule
endpoints. -/

structure Db where
  calendar : List CalendarDoc
  calendar_dates : List CalendarDateDoc
  stop_times : List StopTimeDoc
  trips : List TripDoc
  routes : List RouteDoc

/-- A raised `HTTPException`. -/
structure HTTPError where
  status_code : Nat
  detail : String
deriving DecidableEq

/-- Detail of the 404 raised by `get_next_departure_for_route` when no service
is active on the requested date. -/
def noActiveServicesDetail : String :=
  "На вказану дату немає активних рейсів."

/-- Detail of the 404 raised by `get_next_departure_for_route` when the
aggregation returns no row (f-string over `route_id` and `stop_id`). -/
def departureNotFoundDetail (route_id stop_id : String) : String :=
  "Наступне відправлення для маршруту " ++ route_id ++ " з зупинки " ++ stop_id ++
    " не знайдено на вказаний час/дату."

/-- `$sort {departure_time: ASCENDING}` (stable). -/
def sortByDeparture (l : List StopTimeDoc) : List StopTimeDoc :=
  List.insertionSort (fun a b => a.departure_time ≤ b.departure_time) l

/-- `$lookup` trips by `trip_id = _id` followed by `$match {tripInfoList: {$ne: []}}`
and `$unwind`: one row per matching trip, rows without a match dropped. -/
def lookupTrips (trips : List TripDoc) (st : StopTimeDoc) : List (StopTimeDoc × TripDoc) :=
  (trips.filter (fun t => t.trip_id = st.trip_id)).map (fun t => (st, t))

/-- `$lookup` routes by `route_id = _id` followed by
`$unwind {preserveNullAndEmptyArrays: true}`: rows without a match survive with
an absent route. -/
def lookupRoute (routes : List RouteDoc) (p : StopTimeDoc × TripDoc) :
    List (StopTimeDoc × TripDoc × Option RouteDoc) :=
  let rs := routes.filter (fun rt => rt.route_id = p.2.route_id)
  if rs.isEmpty then [(p.1, p.2, none)]
  else rs.map (fun rt => (p.1, p.2, some rt))

/-- Stages 1–7 of the aggregation pipeline of `get_next_departures_endpoint`:
match stop and cutoff, sort by departure, take the `limit * 5` over-fetch
window, join trips, filter by active services, join routes, truncate to
`limit`. -/
def joinedRows (db : Db) (stop_id : String) (cutoff : Int) (active : Finset String)
    (limit : Nat) : List (StopTimeDoc × TripDoc × Option RouteDoc) :=
  let s1 := db.stop_times.filter (fun st => decide (st.stop_id = stop_id) && decide (cutoff ≤ st.departure_time))
  let s3 := (sortByDeparture s1).take (limit * 5)
  let s4 := s3.flatMap (lookupTrips db.trips)
  let s5 := s4.filter (fun p => decide (p.2.service_id ∈ active))
  let s6 := s5.flatMap (lookupRoute db.routes)
  s6.take limit

/-- The `$project` stage: departure seconds plus route/trip display fields;
the headsign prefers the stop_time-level value (`$ifNull`). -/
structure DepartureDoc where
  departure_time_seconds : Int
  route_short_name : Option String
  route_long_name : Option String
  trip_headsign : Option String
  route_color : Option String
  wheelchair_accessible : Option Int
deriving DecidableEq

def projectRow (p : StopTimeDoc × TripDoc × Option RouteDoc) : DepartureDoc :=
  { departure_time_seconds := p.1.departure_time
    route_short_name := p.2.2.bind (fun rt => rt.route_short_name)
    route_long_name := p.2.2.bind (fun rt => rt.route_long_name)
    trip_headsign := (p.1.stop_headsign).orElse (fun _ => p.2.1.trip_headsign)
    route_color := p.2.2.bind (fun rt => rt.route_color)
    wheelchair_accessible := p.2.1.wheelchair_accessible }

/-- The response model: the departure time rendered back to `"HH:MM:SS"`. -/
structure DepartureInfo where
  departure_time : String
  route_short_name : Option String
  route_long_name : Option String
  trip_headsign : Option String
  route_color : Option String
  wheelchair_accessible : Option Int
deriving DecidableEq

def toDepartureInfo (d : DepartureDoc) : DepartureInfo :=
  { departure_time := format_seconds_to_gtfs_time (some d.departure_time_seconds)
    route_short_name := d.route_short_name
    route_long_name := d.route_long_name
    trip_headsign := d.trip_headsign
    route_color := d.route_color
    wheelchair_accessible := d.wheelchair_accessible }

/-- `api/endpoints/schedule.py`, `get_next_departures_endpoint` after the
date/time parameters are resolved to `day`, `ts` and `cutoff`: an empty
active-service set short-circuits to an empty list before the aggregation
pipeline; otherwise the pipeline runs, `to_list(length=limit)` caps the cursor
and each document is formatted. -/
def get_next_departures_endpoint (db : Db) (stop_id : String) (limit : Nat)
    (cutoff : Int) (day : Fin 7) (ts : Int) : Except HTTPError (List DepartureInfo) :=
  let active := get_active_service_ids db.calendar db.calendar_dates day ts
  if active = ∅ then Except.ok []
  else
    Except.ok ((((joinedRows db stop_id cutoff active limit).map projectRow).take limit).map toDepartureInfo)

/-- Stages of the aggregation pipeline of `get_next_departure_for_route`:
match stop and cutoff, sort, join trips, filter by active services AND the
requested route, `$limit 1`, join routes. -/
def joinedRowsSingle (db : Db) (stop_id route_id : String) (cutoff : Int)
    (active : Finset String) : List (StopTimeDoc × TripDoc × Option RouteDoc) :=
  let s1 := db.stop_times.filter (fun st => decide (st.stop_id = stop_id) && decide (cutoff ≤ st.departure_time))
  let s2 := sortByDeparture s1
  let s4 := s2.flatMap (lookupTrips db.trips)
  let s5 := s4.filter (fun p => decide (p.2.service_id ∈ active) && decide (p.2.route_id = route_id))
  (s5.take 1).flatMap (lookupRoute db.routes)

/-- `api/endpoints/schedule.py`, `get_next_departure_for_route`: an empty
active-service set raises 404 before the pipeline; an empty aggregation result
raises a different 404; otherwise the single row is formatted. -/
def get_next_departure_for_route (db : Db) (stop_id route_id : String)
    (cutoff : Int) (day : Fin 7) (ts : Int) : Except HTTPError DepartureInfo :=
  let active := get_active_service_ids db.calendar db.calendar_dates day ts
  if active = ∅ then Except.error ⟨404, noActiveServicesDetail⟩
  else
    match (joinedRowsSingle db stop_id route_id cutoff active).take 1 with
    | [] => Except.error ⟨404, departureNotFoundDetail route_id stop_id⟩
    | p :: _ => Except.ok (toDepartureInfo (projectRow p))

/-- Total/transitive instances for the departure-time sort relation. -/
instance : IsTotal StopTimeDoc (fun a b => a.departure_time ≤ b.departure_time) :=
  ⟨fun _ _ => le_total _ _⟩

instance : IsTrans StopTimeDoc (fun a b => a.departure_time ≤ b.departure_time) :=
  ⟨fun _ _ _ => le_trans⟩

instance : IsTotal (Int × Rat × Rat) (fun a b => a.1 ≤ b.1) :=
  ⟨fun _ _ => le_total _ _⟩

instance : IsTrans (Int × Rat × Rat) (fun a b => a.1 ≤ b.1) :=
  ⟨fun _ _ _ => le_trans⟩

/-- Test fixture: a stop_time at stop `"S"` departing at `dep`. -/
def exStopTime (tid : String) (dep : Int) : StopTimeDoc :=
  { trip_id := tid, arrival_time := dep, departure_time := dep, stop_id := "S",
    stop_sequence := 1, stop_headsign := none, pickup_type := 0, drop_off_type := 0,
    shape_dist_traveled := none, timepoint := none }

/-- Test fixture: a trip on route `"r1"` under service `svc`. -/
def exTrip (tid svc : String) : TripDoc :=
  { trip_id := tid, route_id := "r1", service_id := svc, trip_headsign := some "Center",
    direction_id := none, block_id := none, shape_id := none,
    wheelchair_accessible := some 1, bikes_allowed := none }

/-- Test fixture: the route `"r1"`. -/
def exRoute : RouteDoc :=
  { route_id := "r1", agency_id := none, route_short_name := some "7",
    route_long_name := some "Main line", route_desc := none, route_type := none,
    route_url := none, route_color := some "FF0000", route_text_color := none,
    shape_ids := [] }

/-- Test database for the departure-query example: stop_times at 100, 200 and
300 seconds whose trips all belong to the service `"svc"`, made active by a
type-1 calendar exception at the queried date. -/
def dbC2 : Db :=
  { calendar := [], calendar_dates := [⟨"svc", 0, 1⟩],
    stop_times := [exStopTime "t1" 100, exStopTime "t2" 200, exStopTime "t3" 300],
    trips := [exTrip "t1" "svc", exTrip "t2" "svc", exTrip "t3" "svc"],
    routes := [exRoute] }

/-- Test database for the over-fetch window: five earliest matching stop_times
belong to the inactive service `"off"`, a sixth (departing at 600) to the
active service `"svc"`. -/
def dbC9 : Db :=
  { calendar := [], calendar_dates := [⟨"svc", 0, 1⟩],
    stop_times := [exStopTime "x1" 200, exStopTime "x2" 210, exStopTime "x3" 220,
      exStopTime "x4" 230, exStopTime "x5" 240, exStopTime "tA" 600],
    trips := [exTrip "x1" "off", exTrip "x2" "off", exTrip "x3" "off",
      exTrip "x4" "off", exTrip "x5" "off", exTrip "tA" "svc"],
    routes := [exRoute] }

/-- Test database with no calendar data at all (no service is ever active). -/
def dbEmpty : Db :=
  { calendar := [], calendar_dates := [],
    stop_times := [exStopTime "t1" 100], trips := [exTrip "t1" "svc"], routes := [exRoute] }

/-- Equality on `Except` results is decidable (needed to evaluate the
endpoints on concrete inputs). -/
instance {e a : Type} [DecidableEq e] [DecidableEq a] : DecidableEq (Except e a) := fun x y =>
  match x, y with
  | .ok u, .ok v =>
    if h : u = v then .isTrue (by rw [h]) else .isFalse (fun hh => h (Except.ok.inj hh))
  | .error u, .error v =>
    if h : u = v then .isTrue (by rw [h]) else .isFalse (fun hh => h (Except.error.inj hh))
  | .ok _, .error _ => .isFalse (fun hh => Except.noConfusion hh)
  | .error _, .ok _ => .isFalse (fun hh => Except.noConfusion hh)

/-- The valid points of one `shape_id` in row order (specification-side view of
the grouping loop). -/
def validPointsFor (sid : String) (rows : List ShapeRow) : List (Int × Rat × Rat) :=
  rows.filterMap (fun r => (shapePoint r).bind (fun q => if q.1 = sid then some q.2 else none))

/-- The group stored under `sid`, if any. -/
def findGroup (sid : String) (m : List (String × List (Int × Rat × Rat))) :
    Option (List (Int × Rat × Rat)) :=
  (m.find? (fun g => g.1 = sid)).map (fun g => g.2)

/-- Combining an existing group with freshly appended points. -/
def mergeGroup : Option (List (Int × Rat × Rat)) → List (Int × Rat × Rat) →
    Option (List (Int × Rat × Rat))
  | none, [] => none
  | none, l => some l
  | some g, l => some (g ++ l)

/-- Test fixture: a stop row at the coordinate boundary `(90, -180)`. -/
def rStopBoundary : StopRow :=
  { stop_id := "X", stop_code := "", stop_name := some "N", stop_desc := "",
    stop_lat := some 90, stop_lon := some (-180), zone_id := "", stop_url := "",
    location_type := "", parent_station := "", wheelchair_boarding := "" }

/-- Test fixture: a fully populated shape-point row. -/
def rShape (sid : String) (sq : Int) (la lo : Rat) : ShapeRow :=
  { shape_id := some sid, shape_pt_lat := some la, shape_pt_lon := some lo,
    shape_pt_sequence := some sq }

/-- Test fixture: a shape row with no `shape_id` (skipped individually). -/
def rShapeNoId : ShapeRow :=
  { shape_id := none, shape_pt_lat := some 5, shape_pt_lon := some 5,
    shape_pt_sequence := some 9 }

/-- Test fixture: two valid points of shape `"sh1"` given out of sequence
order, with an invalid row (no shape_id) in between. -/
def rowsC6 : List ShapeRow :=
  [rShape "sh1" 2 1 2, rShapeNoId, rShape "sh1" 1 3 4]

/-- The document expected from `rowsC6`. -/
def shapeDocC6 : ShapeDoc :=
  { shape_id := "sh1", coordinates := [(3, 4), (1, 2)] }

/-- Test fixture: a route row. -/
def rRoute (rid : String) : RouteRow :=
  { route_id := rid, agency_id := "", route_short_name := "7", route_long_name := "",
    route_desc := "", route_type := "", route_url := "", route_color := "",
    route_text_color := "" }

/-- Test fixture: a trip row. -/
def rTrip (tid rid svc shp : String) : TripRow :=
  { trip_id := tid, route_id := rid, service_id := svc, trip_headsign := "",
    direction_id := "", block_id := "", shape_id := shp, wheelchair_accessible := "",
    bikes_allowed := "" }

/-- Test fixture: one route, two trips with shapes out of order, a trip on an
unknown route and an invalid trip row. -/
def routeRowsC5 : List RouteRow :=
  [rRoute "r1"]

def tripRowsC5 : List TripRow :=
  [rTrip "t1" "r1" "svc" "sh2", rTrip "t2" "r1" "svc" "sh1",
    rTrip "t3" "rX" "svc" "sh3", rTrip "" "r1" "svc" "sh4"]

/-- Positional (big-endian) decimal valuation — the specification-side meaning
of "decoded to the integer value" for an all-digit string. -/
def digitsValBE : List Char → Nat
  | [] => 0
  | c :: cs => digitVal c * 10 ^ cs.length + digitsValBE cs

/-- Specification-side decoder for the optional all-digit integer fields. -/
def decodeOptIntDigits (s : String) : Option Int :=
  if s ≠ "" ∧ isDigitsStr s = true then some ((digitsValBE s.data : Nat) : Int) else none

/-- Test fixture: a trip row whose `direction_id` cell is the digit string
`"2"`. -/
def rTripDir2 : TripRow :=
  { trip_id := "t1", route_id := "r1", service_id := "svc", trip_headsign := "",
    direction_id := "2", block_id := "", shape_id := "", wheelchair_accessible := "",
    bikes_allowed := "" }

/-- Test fixture: a stop_time row with digit strings in `pickup_type` and
`timepoint` and an empty `drop_off_type`. -/
def rStopTimeC8 : StopTimeRow :=
  { trip_id := "t", arrival_time := "1:00:00", departure_time := "1:00:00",
    stop_id := "S", stop_sequence := some 1, stop_headsign := "", pickup_type := "3",
    drop_off_type := "", shape_dist_traveled := none, timepoint := "1" }

/-- The document expected from `rStopTimeC8`. -/
def stopTimeDocC8 : StopTimeDoc :=
  { trip_id := "t", arrival_time := 3600, departure_time := 3600, stop_id := "S",
    stop_sequence := 1, stop_headsign := none, pickup_type := 3, drop_off_type := 0,
    shape_dist_traveled := none, timepoint := some 1 }

/-! ### Lemmas and claim theorems -/

/-! ### Arithmetic and rendering lemmas for the time functions -/
theorem toCharsAux_succ (fuel n : Nat) :
    toCharsAux (fuel + 1) n =
      if n < 10 then [Nat.digitChar n] else toCharsAux fuel (n / 10) ++ [Nat.digitChar (n % 10)] := rfl

theorem toCharsAux_fuel (n : Nat) : ∀ f g : Nat, n < f → n < g → toCharsAux f n = toCharsAux g n := by
  induction n using Nat.strong_induction_on with
  | _ n ih =>
    intro f g hf hg
    obtain ⟨f', rfl⟩ : ∃ f', f = f' + 1 := ⟨f - 1, by omega⟩
    obtain ⟨g', rfl⟩ : ∃ g', g = g' + 1 := ⟨g - 1, by omega⟩
    rw [toCharsAux_succ, toCharsAux_succ]
    by_cases h : n < 10
    · simp [h]
    · simp only [h, if_false]
      have hdiv : n / 10 < n := Nat.div_lt_self (by omega) (by omega)
      rw [ih (n / 10) hdiv f' g' (by omega) (by omega)]

theorem natToChars_unfold (n : Nat) :
    natToChars n = if n < 10 then [Nat.digitChar n] else natToChars (n / 10) ++ [Nat.digitChar (n % 10)] := by
  by_cases h : n < 10
  · rw [if_pos h]
    show toCharsAux (n + 1) n = _
    rw [toCharsAux_succ, if_pos h]
  · rw [if_neg h]
    show toCharsAux (n + 1) n = _
    rw [toCharsAux_succ, if_neg h]
    have hdiv : n / 10 < n := Nat.div_lt_self (by omega) (by omega)
    rw [toCharsAux_fuel (n / 10) n (n / 10 + 1) (by omega) (by omega)]
    rfl

/-- Character sanity for digits produced by `Nat.digitChar` on values `< 10`. -/
theorem digitChar_props (d : Nat) (hd : d < 10) :
    isAsciiDigit (Nat.digitChar d) = true ∧ isPySpace (Nat.digitChar d) = false ∧
      Nat.digitChar d ≠ ':' ∧ Nat.digitChar d ≠ '-' ∧ Nat.digitChar d ≠ '+' ∧
      digitVal (Nat.digitChar d) = d := by
  interval_cases d <;> exact ⟨by decide, by decide, by decide, by decide, by decide, by decide⟩

theorem natToChars_props (n : Nat) :
    ∀ c ∈ natToChars n, isAsciiDigit c = true ∧ isPySpace c = false ∧
      c ≠ ':' ∧ c ≠ '-' ∧ c ≠ '+' := by
  induction n using Nat.strong_induction_on with
  | _ n ih =>
    intro c hc
    rw [natToChars_unfold] at hc
    by_cases h : n < 10
    · simp only [h, if_true, List.mem_singleton] at hc
      subst hc
      have := digitChar_props n h
      exact ⟨this.1, this.2.1, this.2.2.1, this.2.2.2.1, this.2.2.2.2.1⟩
    · simp only [h, if_false, List.mem_append, List.mem_singleton] at hc
      rcases hc with hc | hc
      · exact ih (n / 10) (Nat.div_lt_self (by omega) (by omega)) c hc
      · subst hc
        have := digitChar_props (n % 10) (Nat.mod_lt _ (by omega))
        exact ⟨this.1, this.2.1, this.2.2.1, this.2.2.2.1, this.2.2.2.2.1⟩

theorem natToChars_ne_nil (n : Nat) : natToChars n ≠ [] := by
  rw [natToChars_unfold]
  by_cases h : n < 10 <;> simp [h]

theorem digitsVal_append_singleton (xs : List Char) (c : Char) :
    digitsVal (xs ++ [c]) = 10 * digitsVal xs + digitVal c := by
  simp [digitsVal, List.foldl_append]

theorem digitsVal_natToChars (n : Nat) : digitsVal (natToChars n) = n := by
  induction n using Nat.strong_induction_on with
  | _ n ih =>
    rw [natToChars_unfold]
    by_cases h : n < 10
    · simp only [h, if_true]
      have := (digitChar_props n h).2.2.2.2.2
      simp [digitsVal, this]
    · simp only [h, if_false]
      rw [digitsVal_append_singleton, ih (n / 10) (Nat.div_lt_self (by omega) (by omega))]
      have := (digitChar_props (n % 10) (Nat.mod_lt _ (by omega))).2.2.2.2.2
      omega

theorem padTwo_props (n : Nat) :
    ∀ c ∈ padTwo n, isAsciiDigit c = true ∧ isPySpace c = false ∧
      c ≠ ':' ∧ c ≠ '-' ∧ c ≠ '+' := by
  intro c hc
  unfold padTwo at hc
  by_cases h : n < 10
  · simp only [h, if_true, List.mem_cons] at hc
    rcases hc with hc | hc
    · subst hc; exact ⟨by decide, by decide, by decide, by decide, by decide⟩
    · exact natToChars_props n c hc
  · simp only [h, if_false] at hc
    exact natToChars_props n c hc

theorem padTwo_ne_nil (n : Nat) : padTwo n ≠ [] := by
  unfold padTwo
  by_cases h : n < 10 <;> simp [h, natToChars_ne_nil]

theorem digitsVal_padTwo (n : Nat) : digitsVal (padTwo n) = n := by
  unfold padTwo
  by_cases h : n < 10
  · simp only [h, if_true]
    have : digitsVal ('0' :: natToChars n) = digitsVal (natToChars n) := by
      simp [digitsVal, digitVal]
    rw [this, digitsVal_natToChars]
  · simp [h, digitsVal_natToChars]

theorem dropWhile_eq_self_of_forall {p : Char → Bool} {l : List Char}
    (h : ∀ c ∈ l, p c = false) : l.dropWhile p = l := by
  cases l with
  | nil => rfl
  | cons c cs => simp [List.dropWhile_cons, h c (by simp)]

theorem trimChars_eq_self {l : List Char} (h : ∀ c ∈ l, isPySpace c = false) :
    trimChars l = l := by
  unfold trimChars
  rw [dropWhile_eq_self_of_forall h]
  rw [dropWhile_eq_self_of_forall (fun c hc => h c (List.mem_reverse.mp hc))]
  exact List.reverse_reverse l

theorem splitOnChar_no_sep {sep : Char} {xs : List Char}
    (h : ∀ c ∈ xs, c ≠ sep) : splitOnChar sep xs = [xs] := by
  induction xs with
  | nil => rfl
  | cons c cs ih =>
    have hc : c ≠ sep := h c (by simp)
    simp only [splitOnChar, hc, if_false]
    rw [ih (fun x hx => h x (by simp [hx]))]

theorem splitOnChar_append {sep : Char} {xs ys : List Char}
    (h : ∀ c ∈ xs, c ≠ sep) :
    splitOnChar sep (xs ++ sep :: ys) = xs :: splitOnChar sep ys := by
  induction xs with
  | nil => simp [splitOnChar]
  | cons c cs ih =>
    have hc : c ≠ sep := h c (by simp)
    have hrest := ih (fun x hx => h x (by simp [hx]))
    simp only [List.cons_append, splitOnChar, hc, if_false, List.append_eq] at *
    rw [hrest]

theorem pythonInt_all_digits {cs : List Char}
    (hP : ∀ c ∈ cs, isAsciiDigit c = true ∧ isPySpace c = false ∧
      c ≠ ':' ∧ c ≠ '-' ∧ c ≠ '+')
    (hne : cs ≠ []) : pythonInt cs = some ((digitsVal cs : Int)) := by
  have htrim : trimChars cs = cs := trimChars_eq_self (fun c hc => (hP c hc).2.1)
  have hall : cs.all isAsciiDigit = true := by
    rw [List.all_eq_true]
    intro x hx
    exact (hP x hx).1
  simp only [pythonInt, htrim]
  cases cs with
  | nil => exact absurd rfl hne
  | cons c rest =>
    have h4 : c ≠ '-' := (hP c (by simp)).2.2.2.1
    have h5 : c ≠ '+' := (hP c (by simp)).2.2.2.2
    show (if c = '-' then
        if rest ≠ [] ∧ rest.all isAsciiDigit then some (-(digitsVal rest : Int)) else none
      else if c = '+' then
        if rest ≠ [] ∧ rest.all isAsciiDigit then some ((digitsVal rest : Int)) else none
      else if (c :: rest).all isAsciiDigit then some ((digitsVal (c :: rest) : Int)) else none) =
      some ((digitsVal (c :: rest) : Int))
    rw [if_neg h4, if_neg h5, if_pos hall]

/-- Parsing a rendered `"A:B:C"` string whose three groups are nonempty digit
runs yields `A*3600 + B*60 + C`. -/
theorem gtfs_parse_digit_groups (A B C : List Char)
    (hPA : ∀ c ∈ A, isAsciiDigit c = true ∧ isPySpace c = false ∧ c ≠ ':' ∧ c ≠ '-' ∧ c ≠ '+')
    (hPB : ∀ c ∈ B, isAsciiDigit c = true ∧ isPySpace c = false ∧ c ≠ ':' ∧ c ≠ '-' ∧ c ≠ '+')
    (hPC : ∀ c ∈ C, isAsciiDigit c = true ∧ isPySpace c = false ∧ c ≠ ':' ∧ c ≠ '-' ∧ c ≠ '+')
    (hA : A ≠ []) (hB : B ≠ []) (hC : C ≠ []) :
    gtfs_time_to_seconds (String.mk (A ++ (':' :: (B ++ (':' :: C))))) =
      some ((digitsVal A : Int) * 3600 + (digitsVal B : Int) * 60 + (digitsVal C : Int)) := by
  have hne : (String.mk (A ++ (':' :: (B ++ (':' :: C))))).data.isEmpty = false := by
    show (A ++ (':' :: (B ++ (':' :: C)))).isEmpty = false
    cases A with
    | nil => exact absurd rfl hA
    | cons x xs => simp
  unfold gtfs_time_to_seconds
  rw [hne]
  simp only [Bool.false_eq_true, if_false]
  have htrim : trimChars (A ++ (':' :: (B ++ (':' :: C)))) = A ++ (':' :: (B ++ (':' :: C))) := by
    apply trimChars_eq_self
    intro c hc
    simp only [List.mem_append, List.mem_cons] at hc
    rcases hc with hc | hc | hc | hc | hc
    · exact (hPA c hc).2.1
    · subst hc; decide
    · exact (hPB c hc).2.1
    · subst hc; decide
    · exact (hPC c hc).2.1
  show (match splitOnChar ':' (trimChars (A ++ (':' :: (B ++ (':' :: C))))) with
    | [a, b, c] =>
      match pythonInt a, pythonInt b, pythonInt c with
      | some h, some m, some sec => some (h * 3600 + m * 60 + sec)
      | _, _, _ => none
    | _ => none) = some ((digitsVal A : Int) * 3600 + (digitsVal B : Int) * 60 + (digitsVal C : Int))
  rw [htrim]
  rw [splitOnChar_append (fun c hc => (hPA c hc).2.2.1)]
  rw [splitOnChar_append (fun c hc => (hPB c hc).2.2.1)]
  rw [splitOnChar_no_sep (fun c hc => (hPC c hc).2.2.1)]
  show (match pythonInt A, pythonInt B, pythonInt C with
    | some h, some m, some sec => some (h * 3600 + m * 60 + sec)
    | _, _, _ => none) = some ((digitsVal A : Int) * 3600 + (digitsVal B : Int) * 60 + (digitsVal C : Int))
  rw [pythonInt_all_digits hPA hA, pythonInt_all_digits hPB hB, pythonInt_all_digits hPC hC]

theorem gtfs_format_parse_roundtrip (H M S : Nat) (hM : M < 60) (hS : S < 60) :
    gtfs_time_to_seconds (format_seconds_to_gtfs_time (some ((H * 3600 + M * 60 + S : Nat) : Int))) =
      some ((H * 3600 + M * 60 + S : Nat) : Int) := by
  have hnonneg : ¬ ((H * 3600 + M * 60 + S : Nat) : Int) < 0 := by omega
  have htoNat : ((H * 3600 + M * 60 + S : Nat) : Int).toNat = H * 3600 + M * 60 + S := Int.toNat_natCast _
  unfold format_seconds_to_gtfs_time
  simp only [hnonneg, if_false, htoNat]
  have hqH : (H * 3600 + M * 60 + S) / 3600 = H := by omega
  have hqM : (H * 3600 + M * 60 + S) % 3600 / 60 = M := by omega
  have hqS : (H * 3600 + M * 60 + S) % 60 = S := by omega
  rw [hqH, hqM, hqS]
  rw [gtfs_parse_digit_groups (padTwo H) (padTwo M) (padTwo S)
    (padTwo_props H) (padTwo_props M) (padTwo_props S)
    (padTwo_ne_nil H) (padTwo_ne_nil M) (padTwo_ne_nil S)]
  rw [digitsVal_padTwo, digitsVal_padTwo, digitsVal_padTwo]
  exact congrArg some (by push_cast; ring)

theorem mem_foldl_insert (sid : String) (l : List CalendarDoc) :
    ∀ init : Finset String,
      sid ∈ l.foldl (fun s c => insert c.service_id s) init ↔
        sid ∈ init ∨ ∃ c ∈ l, c.service_id = sid := by
  induction l with
  | nil => intro init; simp
  | cons c cs ih =>
    intro init
    rw [List.foldl_cons, ih]
    simp only [Finset.mem_insert, List.mem_cons]
    constructor
    · rintro (⟨h | h⟩ | ⟨d, hd, hds⟩)
      · exact Or.inr ⟨c, Or.inl rfl, h.symm⟩
      · exact Or.inl h
      · exact Or.inr ⟨d, Or.inr hd, hds⟩
    · rintro (h | ⟨d, hd | hd, hds⟩)
      · exact Or.inl (Or.inr h)
      · subst hd; exact Or.inl (Or.inl hds.symm)
      · exact Or.inr ⟨d, hd, hds⟩

theorem mem_applyException_irrelevant (sid : String) (init : Finset String) (e : CalendarDateDoc)
    (hrel : ¬(e.service_id = sid ∧ (e.exception_type = 1 ∨ e.exception_type = 2))) :
    sid ∈ applyException init e ↔ sid ∈ init := by
  rcases not_and_or.mp hrel with h | h
  · unfold applyException
    by_cases h1 : e.exception_type = 1
    · simp only [h1, if_true, Finset.mem_insert]
      constructor
      · rintro (h' | h')
        · exact absurd h'.symm h
        · exact h'
      · exact Or.inr
    · by_cases h2 : e.exception_type = 2
      · rw [if_neg h1, if_pos h2, Finset.mem_erase]
        constructor
        · exact And.right
        · intro h'
          exact ⟨fun hEq => h hEq.symm, h'⟩
      · simp [h1, h2]
  · push_neg at h
    unfold applyException
    simp [h.1, h.2]

theorem mem_foldl_applyException (sid : String) (l : List CalendarDateDoc) :
    ∀ init : Finset String,
      (sid ∈ l.foldl applyException init ↔
        match lastRelevantException sid l with
        | some e => e.exception_type = 1
        | none => sid ∈ init) := by
  induction l with
  | nil => intro init; simp [lastRelevantException]
  | cons e es ih =>
    intro init
    rw [List.foldl_cons, ih]
    simp only [lastRelevantException, List.filter_cons]
    by_cases hrel : e.service_id = sid ∧ (e.exception_type = 1 ∨ e.exception_type = 2)
    · have hfil : (decide (e.service_id = sid) &&
          (decide (e.exception_type = 1) || decide (e.exception_type = 2))) = true := by
        simp [hrel.1, hrel.2]
      rw [if_pos hfil]
      cases hes : (es.filter (fun e : CalendarDateDoc =>
          e.service_id = sid && (e.exception_type = 1 || e.exception_type = 2))) with
      | nil =>
        simp only [List.getLast?_nil, List.getLast?_singleton]
        rcases hrel.2 with h1 | h2
        · simp [applyException, h1, hrel.1]
        · by_cases h1 : e.exception_type = 1
          · simp [applyException, h1, hrel.1]
          · simp [applyException, h1, h2, hrel.1]
      | cons f fs =>
        rw [List.getLast?_cons_cons]
        have hlast : (f :: fs).getLast? = some ((f :: fs).getLast (by simp)) :=
          List.getLast?_eq_getLast _ _
        rw [hlast]
    · have hfil : (decide (e.service_id = sid) &&
          (decide (e.exception_type = 1) || decide (e.exception_type = 2))) = false := by
        rcases not_and_or.mp hrel with h | h
        · simp [h]
        · push_neg at h
          simp [h.1, h.2]
      rw [if_neg (by simp [hfil])]
      have hmem := mem_applyException_irrelevant sid init e hrel
      cases (es.filter (fun e : CalendarDateDoc =>
          e.service_id = sid && (e.exception_type = 1 || e.exception_type = 2))).getLast? with
      | none => simpa using hmem
      | some f => simp

theorem pairwise_of_forall_rel {α : Type} {R : α → α → Prop} (h : ∀ a b, R a b) :
    ∀ l : List α, l.Pairwise R
  | [] => List.Pairwise.nil
  | a :: t => List.Pairwise.cons (fun b _ => h a b) (pairwise_of_forall_rel h t)

theorem mem_lookupTrips {trips : List TripDoc} {st : StopTimeDoc} {p : StopTimeDoc × TripDoc}
    (hp : p ∈ lookupTrips trips st) : p.1 = st ∧ p.2 ∈ trips ∧ p.2.trip_id = st.trip_id := by
  unfold lookupTrips at hp
  rw [List.mem_map] at hp
  obtain ⟨t, ht, hpt⟩ := hp
  rw [List.mem_filter] at ht
  subst hpt
  exact ⟨rfl, ht.1, by simpa using ht.2⟩

theorem mem_lookupRoute {routes : List RouteDoc} {p : StopTimeDoc × TripDoc}
    {q : StopTimeDoc × TripDoc × Option RouteDoc}
    (hq : q ∈ lookupRoute routes p) : q.1 = p.1 ∧ q.2.1 = p.2 := by
  unfold lookupRoute at hq
  by_cases he : (routes.filter (fun rt => rt.route_id = p.2.route_id)).isEmpty = true
  · rw [if_pos he, List.mem_singleton] at hq
    subst hq
    exact ⟨rfl, rfl⟩
  · rw [if_neg he, List.mem_map] at hq
    obtain ⟨rt, _, hrt⟩ := hq
    subst hrt
    exact ⟨rfl, rfl⟩

theorem joinedRows_mem {db : Db} {sid : String} {cutoff : Int} {active : Finset String}
    {limit : Nat} {q : StopTimeDoc × TripDoc × Option RouteDoc}
    (hq : q ∈ joinedRows db sid cutoff active limit) :
    q.1.stop_id = sid ∧ cutoff ≤ q.1.departure_time ∧ q.2.1.service_id ∈ active := by
  simp only [joinedRows] at hq
  have hq6 := List.mem_of_mem_take hq
  rw [List.mem_flatMap] at hq6
  obtain ⟨p, hp5, hpq⟩ := hq6
  obtain ⟨hq1, hq2⟩ := mem_lookupRoute hpq
  rw [List.mem_filter] at hp5
  obtain ⟨hp4, hpact⟩ := hp5
  rw [List.mem_flatMap] at hp4
  obtain ⟨st, hst3, hpst⟩ := hp4
  obtain ⟨hp1, -, -⟩ := mem_lookupTrips hpst
  have hst1 := List.mem_of_mem_take hst3
  rw [sortByDeparture, List.mem_insertionSort, List.mem_filter] at hst1
  have hstp := hst1.2
  simp only [Bool.and_eq_true, decide_eq_true_eq] at hstp
  rw [hq1, hp1, hq2]
  exact ⟨hstp.1, hstp.2, by simpa using hpact⟩

theorem joinedRows_sorted (db : Db) (sid : String) (cutoff : Int) (active : Finset String)
    (limit : Nat) :
    (joinedRows db sid cutoff active limit).Pairwise
      (fun a b => a.1.departure_time ≤ b.1.departure_time) := by
  simp only [joinedRows]
  apply List.Pairwise.take
  rw [List.pairwise_flatMap]
  constructor
  · intro p _
    unfold lookupRoute
    by_cases he : (db.routes.filter (fun rt => rt.route_id = p.2.route_id)).isEmpty = true
    · rw [if_pos he]
      simp
    · rw [if_neg he, List.pairwise_map]
      exact pairwise_of_forall_rel (fun _ _ => le_refl _) _
  · apply List.Pairwise.filter
    rw [List.pairwise_flatMap]
    constructor
    · intro st _
      rw [lookupTrips, List.pairwise_map]
      refine pairwise_of_forall_rel (fun t u => ?_) _
      intro z hz w hw
      rw [(mem_lookupRoute hz).1, (mem_lookupRoute hw).1]
    · have hsorted : (sortByDeparture (db.stop_times.filter
          (fun st => decide (st.stop_id = sid) && decide (cutoff ≤ st.departure_time)))).Pairwise
            (fun a b : StopTimeDoc => a.departure_time ≤ b.departure_time) :=
        List.sorted_insertionSort _ _
      refine (hsorted.take).imp ?_
      intro a b hab x hx y hy
      intro z hz w hw
      rw [(mem_lookupRoute hz).1, (mem_lookupRoute hw).1, (mem_lookupTrips hx).1,
        (mem_lookupTrips hy).1]
      exact hab

theorem joinedRows_length_le (db : Db) (sid : String) (cutoff : Int) (active : Finset String)
    (limit : Nat) : (joinedRows db sid cutoff active limit).length ≤ limit := by
  simp only [joinedRows]
  exact List.length_take_le _ _

theorem two_lt_length_append_left {l₁ l₂ : List Char} (h : 2 < l₁.length) :
    2 < (l₁ ++ l₂).length := by
  rw [List.length_append]
  omega

theorem detailsDistinct (rid sid : String) :
    noActiveServicesDetail ≠ departureNotFoundDetail rid sid := by
  intro h
  have h2 := congrArg (fun s => s.data[2]?) h
  simp only [noActiveServicesDetail, departureNotFoundDetail, String.data_append] at h2
  rw [List.getElem?_append_left (two_lt_length_append_left (two_lt_length_append_left
    (two_lt_length_append_left (by decide))))] at h2
  rw [List.getElem?_append_left (two_lt_length_append_left (two_lt_length_append_left
    (by decide)))] at h2
  rw [List.getElem?_append_left (two_lt_length_append_left (by decide))] at h2
  rw [List.getElem?_append_left (by decide)] at h2
  exact absurd h2 (by decide)

theorem gtfs_parse_digit_triple (h m s : Nat) :
    gtfs_time_to_seconds (String.mk (natToChars h ++ (':' :: (natToChars m ++ (':' :: natToChars s))))) =
      some ((h * 3600 + m * 60 + s : Nat) : Int) := by
  rw [gtfs_parse_digit_groups _ _ _ (natToChars_props h) (natToChars_props m) (natToChars_props s)
    (natToChars_ne_nil h) (natToChars_ne_nil m) (natToChars_ne_nil s)]
  rw [digitsVal_natToChars, digitsVal_natToChars, digitsVal_natToChars]
  exact congrArg some (by push_cast; ring)

/-- C1: for every target date the resolver returns exactly the service ids
whose calendar record matches the weekday flag and contains the day in its
`start_date ≤ day ≤ end_date` range, then modified by the exceptions dated at
that day — the last relevant exception for a service decides it (type 1 adds
even if the service was not in the base set, type 2 removes as a no-op when
absent); and an empty set is an ordinary return value (here on empty
collections), not an error. -/
theorem calendar_resolution_characterization :
    (∀ (cals : List CalendarDoc) (excs : List CalendarDateDoc) (day : Fin 7) (ts : Int)
      (sid : String),
      sid ∈ get_active_service_ids cals excs day ts ↔
        (match lastRelevantException sid (excs.filter (fun e => e.date = ts)) with
        | some e => e.exception_type = 1
        | none => ∃ c ∈ cals, c.service_id = sid ∧ c.dayFlag day = true ∧
            c.start_date ≤ ts ∧ ts ≤ c.end_date)) ∧
    get_active_service_ids [] [] 0 0 = ∅ := by
  constructor
  · intro cals excs day ts sid
    simp only [get_active_service_ids]
    rw [mem_foldl_applyException]
    have hbase : (sid ∈ (cals.filter (calendarMatches day ts)).foldl
        (fun s c => insert c.service_id s) (∅ : Finset String)) ↔
        (∃ c ∈ cals, c.service_id = sid ∧ c.dayFlag day = true ∧
          c.start_date ≤ ts ∧ ts ≤ c.end_date) := by
      rw [mem_foldl_insert]
      simp only [Finset.not_mem_empty, false_or]
      constructor
      · rintro ⟨c, hc, hcs⟩
        rw [List.mem_filter] at hc
        have hm := hc.2
        simp only [calendarMatches, Bool.and_eq_true, decide_eq_true_eq] at hm
        exact ⟨c, hc.1, hcs, hm.1.1, hm.1.2, hm.2⟩
      · rintro ⟨c, hc, hcs, hflag, h1, h2⟩
        refine ⟨c, List.mem_filter.mpr ⟨hc, ?_⟩, hcs⟩
        simp [calendarMatches, hflag, h1, h2]
    cases hl : lastRelevantException sid (excs.filter (fun e => e.date = ts)) with
    | none => simpa using hbase
    | some e => exact Iff.rfl
  · rfl

/-- C2: every row surviving the departures pipeline has the requested stop and
a departure no earlier than the cutoff; the pipeline output is sorted
ascending by departure time and truncated to `limit`; and on the concrete
three-departure example with cutoff 150 and limit 2 the endpoint returns
exactly the 200 s and 300 s departures, in that order. -/
theorem departure_query_order_and_filter :
    (∀ (db : Db) (sid : String) (cutoff : Int) (active : Finset String) (limit : Nat),
      (∀ q ∈ joinedRows db sid cutoff active limit,
        q.1.stop_id = sid ∧ cutoff ≤ q.1.departure_time) ∧
      (joinedRows db sid cutoff active limit).Pairwise
        (fun a b => a.1.departure_time ≤ b.1.departure_time) ∧
      (joinedRows db sid cutoff active limit).length ≤ limit) ∧
    get_next_departures_endpoint dbC2 "S" 2 150 0 0 =
      Except.ok [⟨"00:03:20", some "7", some "Main line", some "Center", some "FF0000", some 1⟩,
        ⟨"00:05:00", some "7", some "Main line", some "Center", some "FF0000", some 1⟩] := by
  refine ⟨fun db sid cutoff active limit => ⟨?_, joinedRows_sorted db sid cutoff active limit,
    joinedRows_length_le db sid cutoff active limit⟩, by decide⟩
  intro q hq
  exact ⟨(joinedRows_mem hq).1, (joinedRows_mem hq).2.1⟩

theorem departure_query_order_and_filter_witness :
    (exStopTime "t2" 200, exTrip "t2" "svc", some exRoute) ∈
      joinedRows dbC2 "S" 150 {"svc"} 2 ∧
    ((exStopTime "t2" 200, exTrip "t2" "svc", some exRoute) :
        StopTimeDoc × TripDoc × Option RouteDoc).1.stop_id = "S" ∧
    (150 : Int) ≤ ((exStopTime "t2" 200, exTrip "t2" "svc", some exRoute) :
        StopTimeDoc × TripDoc × Option RouteDoc).1.departure_time := by
  have hmem : (exStopTime "t2" 200, exTrip "t2" "svc", some exRoute) ∈
      joinedRows dbC2 "S" 150 {"svc"} 2 := by decide
  have h := (departure_query_order_and_filter.1 dbC2 "S" 150 {"svc"} 2).1 _ hmem
  exact ⟨hmem, h.1, h.2⟩

/-- C3: `"25:30:15"` parses to 91815 s and `"bad"` to absent; 91815 s formats
back to `"25:30:15"` (hours above 23 zero-padded, not clamped or reduced
modulo 24); and parse-after-format is the identity for every
`H ≥ 0, 0 ≤ M < 60, 0 ≤ S < 60`. -/
theorem gtfs_time_parse_format_roundtrip :
    gtfs_time_to_seconds "25:30:15" = some 91815 ∧
    gtfs_time_to_seconds "bad" = none ∧
    format_seconds_to_gtfs_time (some 91815) = "25:30:15" ∧
    (∀ H M S : Nat, M < 60 → S < 60 →
      gtfs_time_to_seconds (format_seconds_to_gtfs_time
        (some ((H * 3600 + M * 60 + S : Nat) : Int))) =
        some ((H * 3600 + M * 60 + S : Nat) : Int)) :=
  ⟨by decide, by decide, by decide, gtfs_format_parse_roundtrip⟩

theorem gtfs_time_parse_format_roundtrip_witness :
    30 < 60 ∧ 15 < 60 ∧
    gtfs_time_to_seconds (format_seconds_to_gtfs_time
      (some ((25 * 3600 + 30 * 60 + 15 : Nat) : Int))) =
      some ((25 * 3600 + 30 * 60 + 15 : Nat) : Int) :=
  ⟨by decide, by decide, gtfs_time_parse_format_roundtrip.2.2.2 25 30 15 (by decide) (by decide)⟩

/-- C4: whenever the active-service set of the requested date is empty, the
next-departures list endpoint answers with the empty list (not an error) while
the single next-departure-of-a-route endpoint answers with a 404 error, and
both answers are fixed by the calendar collections alone — the stop_time,
trip and route collections are universally quantified, so the join pipeline's
data cannot influence the result; the empty-services 404 detail also differs
from the no-matching-departure 404 detail. -/
theorem empty_active_services_outcomes :
    ∀ (db : Db) (sid rid : String) (cutoff : Int) (limit : Nat) (day : Fin 7) (ts : Int),
      get_active_service_ids db.calendar db.calendar_dates day ts = ∅ →
        get_next_departures_endpoint db sid limit cutoff day ts = Except.ok [] ∧
        get_next_departure_for_route db sid rid cutoff day ts =
          Except.error ⟨404, noActiveServicesDetail⟩ ∧
        noActiveServicesDetail ≠ departureNotFoundDetail rid sid := by
  intro db sid rid cutoff limit day ts h
  refine ⟨?_, ?_, detailsDistinct rid sid⟩
  · simp only [get_next_departures_endpoint]
    rw [if_pos h]
  · simp only [get_next_departure_for_route]
    rw [if_pos h]

theorem empty_active_services_outcomes_witness :
    get_active_service_ids dbEmpty.calendar dbEmpty.calendar_dates 0 0 = ∅ ∧
    get_next_departures_endpoint dbEmpty "S" 10 0 0 0 = Except.ok [] ∧
    get_next_departure_for_route dbEmpty "S" "r1" 0 0 0 =
      Except.error ⟨404, noActiveServicesDetail⟩ ∧
    noActiveServicesDetail ≠ departureNotFoundDetail "r1" "S" := by
  have h := empty_active_services_outcomes dbEmpty "S" "r1" 0 10 0 0 (by decide)
  exact ⟨by decide, h.1, h.2.1, h.2.2⟩

/-- C9: with limit 1 the pipeline only inspects the `1 × 5` earliest matching
stop_times before the trip/service filters; on `dbC9` those five candidates
all belong to an inactive service, so the endpoint returns zero departures
even though a later stop_time (600 s) of an active service matches the stop
and cutoff. -/
theorem overfetch_window_incompleteness :
    get_next_departures_endpoint dbC9 "S" 1 150 0 0 = Except.ok [] ∧
    (dbC9.stop_times.any (fun st => st.stop_id = "S" && decide (150 ≤ st.departure_time) &&
      dbC9.trips.any (fun t => t.trip_id = st.trip_id &&
        decide (t.service_id ∈
          get_active_service_ids dbC9.calendar dbC9.calendar_dates 0 0)))) = true :=
  ⟨by decide, by decide⟩

/-- C10: `gtfs_time_to_seconds` validates no component ranges — minutes or
seconds of 60 or more and negative components are accepted and summed as
`H*3600 + M*60 + S` (`"10:99:99"` gives 42039, `"10:-5:00"` gives 35700);
formatting 42039 back yields the canonical `"11:40:39"`, not the original
string, so non-canonical values do not round-trip through
`format_seconds_to_gtfs_time`; in general every all-digit `"h:m:s"` rendering
parses to `h*3600 + m*60 + s` with no bound on `m` or `s`. -/
theorem time_parse_no_component_range_check :
    gtfs_time_to_seconds "10:99:99" = some 42039 ∧
    gtfs_time_to_seconds "10:-5:00" = some 35700 ∧
    format_seconds_to_gtfs_time (gtfs_time_to_seconds "10:99:99") = "11:40:39" ∧
    format_seconds_to_gtfs_time (gtfs_time_to_seconds "10:99:99") ≠ "10:99:99" ∧
    (∀ h m s : Nat,
      gtfs_time_to_seconds (String.mk
        (natToChars h ++ (':' :: (natToChars m ++ (':' :: natToChars s))))) =
        some ((h * 3600 + m * 60 + s : Nat) : Int)) :=
  ⟨by decide, by decide, by decide, by decide, gtfs_parse_digit_triple⟩

theorem stream_parse_stops_eq_filterMap (rows : List StopRow) :
    stream_parse_stops rows = rows.filterMap decodeStopRow := by
  induction rows with
  | nil => rfl
  | cons r rs ih =>
    simp only [stream_parse_stops, List.filterMap_cons]
    cases decodeStopRow r <;> simp [ih]

/-- C7: the stop decoder drops a row exactly when a required field is missing
or a coordinate lies outside the valid range — for present coordinates the row
is kept iff `|lat| ≤ 90` and `|lon| ≤ 180` (so the boundary values `±90`/`±180`
are included and anything beyond is excluded), and rows missing `stop_id`,
latitude or longitude are dropped; the stream is exactly the per-row decode. -/
theorem stop_coordinate_validation :
    (∀ rows : List StopRow, stream_parse_stops rows = rows.filterMap decodeStopRow) ∧
    (∀ (r : StopRow) (la lo : Rat), r.stop_lat = some la → r.stop_lon = some lo →
      r.stop_id ≠ "" → ((decodeStopRow r).isSome ↔ (|la| ≤ 90 ∧ |lo| ≤ 180))) ∧
    (∀ r : StopRow, r.stop_id = "" ∨ r.stop_lat = none ∨ r.stop_lon = none →
      decodeStopRow r = none) := by
  refine ⟨stream_parse_stops_eq_filterMap, ?_, ?_⟩
  · intro r la lo hla hlo hid
    by_cases h : -90 ≤ la ∧ la ≤ 90 ∧ -180 ≤ lo ∧ lo ≤ 180
    · simp only [decodeStopRow, hid, if_false, hla, hlo, if_pos h, Option.isSome_some,
        true_iff]
      rw [abs_le, abs_le]
      exact ⟨⟨h.1, h.2.1⟩, h.2.2.1, h.2.2.2⟩
    · simp only [decodeStopRow, hid, if_false, hla, hlo, if_neg h, Option.isSome_none,
        Bool.false_eq_true, false_iff]
      rw [abs_le, abs_le]
      tauto
  · intro r h
    rcases h with h | h | h
    · simp [decodeStopRow, h]
    · by_cases hid : r.stop_id = ""
      · simp [decodeStopRow, hid]
      · simp [decodeStopRow, hid, h]
    · by_cases hid : r.stop_id = ""
      · simp [decodeStopRow, hid]
      · cases hla : r.stop_lat <;> simp [decodeStopRow, hid, h, hla]

theorem stop_coordinate_validation_witness :
    rStopBoundary.stop_lat = some 90 ∧ rStopBoundary.stop_lon = some (-180) ∧
    rStopBoundary.stop_id ≠ "" ∧ (decodeStopRow rStopBoundary).isSome = true := by
  have h := stop_coordinate_validation.2.1 rStopBoundary 90 (-180) rfl rfl (by decide)
  exact ⟨rfl, rfl, by decide, h.mpr (by decide)⟩

theorem addPoint_nil (sid : String) (pt : Int × Rat × Rat) :
    addPoint [] sid pt = [(sid, [pt])] := rfl

theorem addPoint_cons (g : String × List (Int × Rat × Rat))
    (gs : List (String × List (Int × Rat × Rat))) (sid : String) (pt : Int × Rat × Rat) :
    addPoint (g :: gs) sid pt =
      if g.1 = sid then (g.1, g.2 ++ [pt]) :: gs else g :: addPoint gs sid pt := rfl

theorem addPoint_findGroup (m : List (String × List (Int × Rat × Rat))) (sid psid : String)
    (pt : Int × Rat × Rat) :
    findGroup sid (addPoint m psid pt) =
      if sid = psid then some ((findGroup sid m).getD [] ++ [pt]) else findGroup sid m := by
  induction m with
  | nil =>
    rw [addPoint_nil]
    by_cases h : sid = psid
    · rw [if_pos h, findGroup, findGroup]
      rw [List.find?_cons_of_pos _ (by simp [h.symm])]
      simp
    · rw [if_neg h, findGroup, findGroup]
      rw [List.find?_cons_of_neg _ (by simp; exact fun hh => h hh.symm)]
  | cons g gs ih =>
    rw [addPoint_cons]
    by_cases hg : g.1 = psid
    · rw [if_pos hg]
      by_cases h : sid = psid
      · have hg' : g.1 = sid := hg.trans h.symm
        rw [if_pos h, findGroup, findGroup]
        rw [List.find?_cons_of_pos _ (by simp [hg']),
          List.find?_cons_of_pos _ (by simp [hg'])]
        simp
      · have hg' : ¬ (g.1 = sid) := fun hh => h ((hh.symm.trans hg))
        rw [if_neg h, findGroup, findGroup]
        rw [List.find?_cons_of_neg _ (by simp [hg']),
          List.find?_cons_of_neg _ (by simp [hg'])]
    · rw [if_neg hg]
      by_cases hgs : g.1 = sid
      · have h : ¬ (sid = psid) := fun hh => hg (hgs.trans hh)
        rw [if_neg h, findGroup, findGroup]
        rw [List.find?_cons_of_pos _ (by simp [hgs]),
          List.find?_cons_of_pos _ (by simp [hgs])]
      · show findGroup sid (g :: addPoint gs psid pt) = _
        rw [findGroup, List.find?_cons_of_neg _ (by simp [hgs])]
        rw [show (Option.map (fun g => g.2) ((addPoint gs psid pt).find?
          (fun x => x.1 = sid))) = findGroup sid (addPoint gs psid pt) from rfl]
        rw [ih]
        rw [show (findGroup sid (g :: gs)) = findGroup sid gs from by
          rw [findGroup, findGroup, List.find?_cons_of_neg _ (by simp [hgs])]]

theorem foldl_groupStep_findGroup (rows : List ShapeRow) :
    ∀ (m : List (String × List (Int × Rat × Rat))) (sid : String),
      findGroup sid (rows.foldl groupStep m) = mergeGroup (findGroup sid m) (validPointsFor sid rows) := by
  induction rows with
  | nil =>
    intro m sid
    simp only [List.foldl_nil, validPointsFor, List.filterMap_nil]
    cases findGroup sid m <;> simp [mergeGroup]
  | cons r rs ih =>
    intro m sid
    rw [List.foldl_cons, ih]
    cases hsp : shapePoint r with
    | none =>
      simp [groupStep, hsp, validPointsFor, List.filterMap_cons]
    | some q =>
      obtain ⟨psid, pt⟩ := q
      simp only [groupStep, hsp]
      rw [addPoint_findGroup]
      have hvp : validPointsFor sid (r :: rs) =
          (if psid = sid then pt :: validPointsFor sid rs else validPointsFor sid rs) := by
        simp only [validPointsFor, List.filterMap_cons, hsp, Option.bind_some]
        by_cases h : psid = sid
        · simp [h]
        · simp [h]
      rw [hvp]
      by_cases h : sid = psid
      · rw [if_pos h, if_pos (h.symm)]
        cases hfg : findGroup sid m with
        | none => simp [mergeGroup]
        | some g =>
          cases hrest : validPointsFor sid rs <;> simp [mergeGroup]
      · rw [if_neg h, if_neg (fun hh => h hh.symm)]

theorem groupShapes_findGroup (rows : List ShapeRow) (sid : String) :
    findGroup sid (groupShapes rows) = mergeGroup none (validPointsFor sid rows) := by
  rw [groupShapes, foldl_groupStep_findGroup]
  rfl

theorem mem_addPoint {m : List (String × List (Int × Rat × Rat))} {sid : String}
    {pt : Int × Rat × Rat} {g : String × List (Int × Rat × Rat)}
    (hg : g ∈ addPoint m sid pt) : g ∈ m ∨ g.2 ≠ [] := by
  induction m with
  | nil =>
    rw [addPoint_nil, List.mem_singleton] at hg
    subst hg
    exact Or.inr (by simp)
  | cons a as ih =>
    rw [addPoint_cons] at hg
    by_cases ha : a.1 = sid
    · rw [if_pos ha, List.mem_cons] at hg
      rcases hg with hg | hg
      · subst hg
        exact Or.inr (by simp)
      · exact Or.inl (List.mem_cons_of_mem _ hg)
    · rw [if_neg ha, List.mem_cons] at hg
      rcases hg with hg | hg
      · exact Or.inl (hg ▸ List.mem_cons_self _ _)
      · rcases ih hg with h | h
        · exact Or.inl (List.mem_cons_of_mem _ h)
        · exact Or.inr h

theorem mem_keys_addPoint {m : List (String × List (Int × Rat × Rat))} {sid k : String}
    {pt : Int × Rat × Rat} :
    k ∈ (addPoint m sid pt).map (fun g => g.1) ↔ k ∈ m.map (fun g => g.1) ∨ k = sid := by
  induction m with
  | nil => simp [addPoint_nil]
  | cons a as ih =>
    rw [addPoint_cons]
    by_cases ha : a.1 = sid
    · rw [if_pos ha]
      simp only [List.map_cons, List.mem_cons]
      constructor
      · rintro (h | h)
        · exact Or.inl (Or.inl h)
        · exact Or.inl (Or.inr h)
      · rintro ((h | h) | h)
        · exact Or.inl h
        · exact Or.inr h
        · exact Or.inl (h.trans ha.symm)
    · rw [if_neg ha]
      simp only [List.map_cons, List.mem_cons, ih]
      tauto

theorem keys_nodup_addPoint {m : List (String × List (Int × Rat × Rat))} {sid : String}
    {pt : Int × Rat × Rat} (h : (m.map (fun g => g.1)).Nodup) :
    ((addPoint m sid pt).map (fun g => g.1)).Nodup := by
  induction m with
  | nil => simp [addPoint_nil]
  | cons a as ih =>
    rw [List.map_cons, List.nodup_cons] at h
    rw [addPoint_cons]
    by_cases ha : a.1 = sid
    · rw [if_pos ha]
      rw [List.map_cons, List.nodup_cons]
      exact ⟨ha ▸ h.1, h.2⟩
    · rw [if_neg ha]
      rw [List.map_cons, List.nodup_cons]
      refine ⟨?_, ih h.2⟩
      rw [mem_keys_addPoint]
      rintro (hh | hh)
      · exact h.1 hh
      · exact ha hh

theorem groupShapes_invariants (rows : List ShapeRow) :
    ((groupShapes rows).map (fun g => g.1)).Nodup ∧ ∀ g ∈ groupShapes rows, g.2 ≠ [] := by
  rw [groupShapes]
  suffices h : ∀ m : List (String × List (Int × Rat × Rat)),
      (m.map (fun g => g.1)).Nodup → (∀ g ∈ m, g.2 ≠ []) →
      ((rows.foldl groupStep m).map (fun g => g.1)).Nodup ∧
        ∀ g ∈ rows.foldl groupStep m, g.2 ≠ [] by
    exact h [] (by simp) (by simp)
  induction rows with
  | nil => intro m h1 h2; exact ⟨h1, h2⟩
  | cons r rs ih =>
    intro m h1 h2
    rw [List.foldl_cons]
    apply ih
    · cases hsp : shapePoint r with
      | none => simpa [groupStep, hsp] using h1
      | some q => simpa [groupStep, hsp] using keys_nodup_addPoint h1
    · intro g hg
      cases hsp : shapePoint r with
      | none =>
        rw [groupStep, hsp] at hg
        exact h2 g hg
      | some q =>
        rw [groupStep, hsp] at hg
        rcases mem_addPoint hg with h | h
        · exact h2 g h
        · exact h

theorem find?_key_eq {β : Type} {m : List (String × β)}
    (hnd : (m.map (fun g => g.1)).Nodup) {g : String × β} (hg : g ∈ m) :
    m.find? (fun x => x.1 = g.1) = some g := by
  induction m with
  | nil => exact absurd hg (List.not_mem_nil g)
  | cons a as ih =>
    rw [List.map_cons, List.nodup_cons] at hnd
    rcases List.mem_cons.mp hg with hg' | hg'
    · subst hg'
      exact List.find?_cons_of_pos _ (by simp)
    · have ha : ¬ (a.1 = g.1) := by
        intro hh
        exact hnd.1 (hh ▸ List.mem_map_of_mem (fun x => x.1) hg')
      rw [List.find?_cons_of_neg _ (by simpa using ha)]
      exact ih hnd.2 hg'

theorem sortBySeq_eq_nil_iff (l : List (Int × Rat × Rat)) : sortBySeq l = [] ↔ l = [] := by
  constructor
  · intro h
    have := (List.perm_insertionSort (fun a b : Int × Rat × Rat => a.1 ≤ b.1) l).length_eq
    rw [sortBySeq] at h
    rw [h] at this
    exact List.eq_nil_of_length_eq_zero this.symm
  · intro h
    rw [h]
    rfl

theorem mem_stream_parse_shapes {rows : List ShapeRow} {d : ShapeDoc} :
    d ∈ stream_parse_shapes rows ↔
      ∃ g ∈ groupShapes rows, g.2 ≠ [] ∧
        d = ⟨g.1, (sortBySeq g.2).map (fun p => (p.2.1, p.2.2))⟩ := by
  unfold stream_parse_shapes
  rw [List.mem_filterMap]
  constructor
  · rintro ⟨g, hg, hfg⟩
    simp only at hfg
    by_cases he : ((sortBySeq g.2).map (fun p => (p.2.1, p.2.2))).isEmpty = true
    · rw [if_pos he] at hfg
      exact absurd hfg (by simp)
    · rw [if_neg he] at hfg
      have hne : g.2 ≠ [] := by
        intro hnil
        apply he
        rw [List.isEmpty_iff, List.map_eq_nil_iff, sortBySeq_eq_nil_iff]
        exact hnil
      exact ⟨g, hg, hne, (Option.some.inj hfg).symm⟩
  · rintro ⟨g, hg, hne, rfl⟩
    refine ⟨g, hg, ?_⟩
    simp only
    rw [if_neg ?_]
    intro he
    rw [List.isEmpty_iff, List.map_eq_nil_iff, sortBySeq_eq_nil_iff] at he
    exact hne he

theorem groupShapes_group_content (rows : List ShapeRow) :
    ∀ g ∈ groupShapes rows, g.2 = validPointsFor g.1 rows := by
  obtain ⟨hnd, -⟩ := groupShapes_invariants rows
  intro g hg
  have h1 : findGroup g.1 (groupShapes rows) = some g.2 := by
    rw [findGroup, find?_key_eq hnd hg]
    rfl
  have h2 := groupShapes_findGroup rows g.1
  rw [h1] at h2
  cases hvp : validPointsFor g.1 rows with
  | nil =>
    rw [hvp] at h2
    exact absurd h2 (by simp [mergeGroup])
  | cons p ps =>
    rw [hvp] at h2
    simpa [mergeGroup] using h2

/-- C6: every emitted shape's coordinate list is exactly its shape_id's valid
points (rows individually skipped when `shape_id`, latitude, longitude or
sequence is missing) sorted by ascending GTFS sequence with the sequence
stripped; distinct shape_ids never mix because each document is determined by
its own group; a shape_id occurs in the output iff it has at least one valid
point (so zero valid points emit nothing); and output documents are unique per
shape_id. -/
theorem shape_aggregation_spec :
    ∀ rows : List ShapeRow,
      (∀ d ∈ stream_parse_shapes rows,
        d.coordinates =
          (sortBySeq (validPointsFor d.shape_id rows)).map (fun p => (p.2.1, p.2.2)) ∧
        (sortBySeq (validPointsFor d.shape_id rows)).Pairwise (fun a b => a.1 ≤ b.1)) ∧
      (∀ sid : String,
        (∃ d ∈ stream_parse_shapes rows, d.shape_id = sid) ↔ validPointsFor sid rows ≠ []) ∧
      (∀ d₁ ∈ stream_parse_shapes rows, ∀ d₂ ∈ stream_parse_shapes rows,
        d₁.shape_id = d₂.shape_id → d₁ = d₂) := by
  intro rows
  obtain ⟨hnd, -⟩ := groupShapes_invariants rows
  refine ⟨?_, ?_, ?_⟩
  · intro d hd
    obtain ⟨g, hg, hgne, rfl⟩ := mem_stream_parse_shapes.mp hd
    constructor
    · show (sortBySeq g.2).map _ = (sortBySeq (validPointsFor g.1 rows)).map _
      rw [groupShapes_group_content rows g hg]
    · exact List.sorted_insertionSort _ _
  · intro sid
    constructor
    · rintro ⟨d, hd, rfl⟩
      obtain ⟨g, hg, hgne, rfl⟩ := mem_stream_parse_shapes.mp hd
      show validPointsFor g.1 rows ≠ []
      rw [← groupShapes_group_content rows g hg]
      exact hgne
    · intro hvp
      have h2 := groupShapes_findGroup rows sid
      cases hvpl : validPointsFor sid rows with
      | nil => exact absurd hvpl hvp
      | cons p ps =>
        rw [hvpl] at h2
        have hex : ∃ g ∈ groupShapes rows, g.1 = sid ∧ g.2 = p :: ps := by
          rw [findGroup] at h2
          cases hf : (groupShapes rows).find? (fun g => g.1 = sid) with
          | none =>
            rw [hf] at h2
            exact absurd h2 (by simp [mergeGroup])
          | some g =>
            rw [hf] at h2
            have hgm := List.mem_of_find?_eq_some hf
            have hgp := List.find?_some hf
            refine ⟨g, hgm, by simpa using hgp, ?_⟩
            simpa [mergeGroup] using h2
        obtain ⟨g, hg, hgsid, hgp⟩ := hex
        refine ⟨⟨g.1, (sortBySeq g.2).map (fun p => (p.2.1, p.2.2))⟩,
          mem_stream_parse_shapes.mpr ⟨g, hg, by rw [hgp]; simp, rfl⟩, hgsid⟩
  · intro d₁ hd₁ d₂ hd₂ heq
    obtain ⟨g₁, hg₁, -, rfl⟩ := mem_stream_parse_shapes.mp hd₁
    obtain ⟨g₂, hg₂, -, rfl⟩ := mem_stream_parse_shapes.mp hd₂
    have heq' : g₁.1 = g₂.1 := heq
    have h1 := find?_key_eq hnd hg₁
    rw [heq'] at h1
    have h2 := find?_key_eq hnd hg₂
    have hgeq : g₁ = g₂ := Option.some.inj (h1.symm.trans h2)
    rw [hgeq]

theorem shape_aggregation_spec_witness :
    shapeDocC6 ∈ stream_parse_shapes rowsC6 ∧
    shapeDocC6.coordinates =
      (sortBySeq (validPointsFor shapeDocC6.shape_id rowsC6)).map (fun p => (p.2.1, p.2.2)) := by
  have hmem : shapeDocC6 ∈ stream_parse_shapes rowsC6 := by decide
  exact ⟨hmem, ((shape_aggregation_spec rowsC6).1 shapeDocC6 hmem).1⟩

theorem mem_insertOnce {s t : String} {l : List String} :
    s ∈ insertOnce t l ↔ s ∈ l ∨ s = t := by
  unfold insertOnce
  by_cases h : t ∈ l
  · rw [if_pos h]
    constructor
    · exact Or.inl
    · rintro (hs | rfl)
      · exact hs
      · exact h
  · rw [if_neg h]
    simp [List.mem_append]

theorem nodup_insertOnce {t : String} {l : List String} (h : l.Nodup) :
    (insertOnce t l).Nodup := by
  unfold insertOnce
  by_cases ht : t ∈ l
  · rwa [if_pos ht]
  · rw [if_neg ht]
    simp [List.nodup_append, h, ht]

theorem tripsPass_snd (keys : List String) (rows : List TripRow) :
    (tripsPass keys rows).2 = (rows.filter validTripRow).map mkTripDoc := by
  suffices h : ∀ acc : (String → List String) × List TripDoc,
      (rows.foldl (tripsStep keys) acc).2 = acc.2 ++ (rows.filter validTripRow).map mkTripDoc by
    simpa using h ((fun _ => []), [])
  induction rows with
  | nil => intro acc; simp
  | cons r rs ih =>
    intro acc
    rw [List.foldl_cons, ih, List.filter_cons]
    by_cases hv : validTripRow r = true
    · have hstep : (tripsStep keys acc r).2 = acc.2 ++ [mkTripDoc r] := by
        rw [tripsStep, if_pos hv]
      rw [if_pos hv, hstep, List.map_cons, List.append_assoc]
      rfl
    · have hstep : tripsStep keys acc r = acc := by
        rw [tripsStep, if_neg hv]
      rw [if_neg hv, hstep]

theorem tripsPass_fst_nodup (keys : List String) (rows : List TripRow) (k : String) :
    ((tripsPass keys rows).1 k).Nodup := by
  suffices h : ∀ acc : (String → List String) × List TripDoc,
      (∀ k', (acc.1 k').Nodup) → ((rows.foldl (tripsStep keys) acc).1 k).Nodup by
    exact h ((fun _ => []), []) (fun _ => List.nodup_nil)
  induction rows with
  | nil => intro acc hacc; exact hacc k
  | cons r rs ih =>
    intro acc hacc
    rw [List.foldl_cons]
    apply ih
    intro k'
    by_cases hv : validTripRow r = true
    · rw [tripsStep, if_pos hv]
      by_cases hc : keys.contains r.route_id = true ∧ r.shape_id ≠ ""
      · rw [if_pos hc]
        by_cases hk : k' = r.route_id
        · simpa [hk] using nodup_insertOnce (hacc r.route_id)
        · simpa [hk] using hacc k'
      · rw [if_neg hc]
        exact hacc k'
    · rw [tripsStep, if_neg hv]
      exact hacc k'

theorem tripsPass_fst_mem (keys : List String) (rows : List TripRow) (k s : String) :
    s ∈ (tripsPass keys rows).1 k ↔
      (keys.contains k = true ∧ ∃ r ∈ rows, validTripRow r = true ∧ r.route_id = k ∧
        r.shape_id = s ∧ s ≠ "") := by
  suffices h : ∀ acc : (String → List String) × List TripDoc,
      (s ∈ (rows.foldl (tripsStep keys) acc).1 k ↔
        (s ∈ acc.1 k ∨ (keys.contains k = true ∧ ∃ r ∈ rows, validTripRow r = true ∧
          r.route_id = k ∧ r.shape_id = s ∧ s ≠ ""))) by
    have h0 := h ((fun _ => []), [])
    simpa using h0
  induction rows with
  | nil =>
    intro acc
    simp
  | cons r rs ih =>
    intro acc
    rw [List.foldl_cons, ih, List.exists_mem_cons_iff]
    by_cases hv : validTripRow r = true
    · by_cases hc : keys.contains r.route_id = true ∧ r.shape_id ≠ ""
      · by_cases hk : k = r.route_id
        · have hstep : (tripsStep keys acc r).1 k = insertOnce r.shape_id (acc.1 k) := by
            rw [tripsStep, if_pos hv, if_pos hc]
            show (if k = r.route_id then insertOnce r.shape_id (acc.1 k) else acc.1 k) = _
            rw [if_pos hk]
          rw [hstep, mem_insertOnce]
          constructor
          · rintro ((hs | rfl) | ⟨hcont, hrest⟩)
            · exact Or.inl hs
            · exact Or.inr ⟨hk ▸ hc.1, Or.inl ⟨hv, hk.symm, rfl, hc.2⟩⟩
            · exact Or.inr ⟨hcont, Or.inr hrest⟩
          · rintro (hs | ⟨hcont, ⟨-, -, hshape, -⟩ | hrest⟩)
            · exact Or.inl (Or.inl hs)
            · exact Or.inl (Or.inr hshape.symm)
            · exact Or.inr ⟨hcont, hrest⟩
        · have hstep : (tripsStep keys acc r).1 k = acc.1 k := by
            rw [tripsStep, if_pos hv, if_pos hc]
            show (if k = r.route_id then insertOnce r.shape_id (acc.1 k) else acc.1 k) = _
            rw [if_neg hk]
          rw [hstep]
          constructor
          · rintro (hs | ⟨hcont, hrest⟩)
            · exact Or.inl hs
            · exact Or.inr ⟨hcont, Or.inr hrest⟩
          · rintro (hs | ⟨hcont, ⟨-, hrid, -, -⟩ | hrest⟩)
            · exact Or.inl hs
            · exact absurd hrid.symm hk
            · exact Or.inr ⟨hcont, hrest⟩
      · have hstep : (tripsStep keys acc r).1 k = acc.1 k := by
          rw [tripsStep, if_pos hv, if_neg hc]
        rw [hstep]
        constructor
        · rintro (hs | ⟨hcont, hrest⟩)
          · exact Or.inl hs
          · exact Or.inr ⟨hcont, Or.inr hrest⟩
        · rintro (hs | ⟨hcont, ⟨-, hrid, hshape, hsne⟩ | hrest⟩)
          · exact Or.inl hs
          · exact absurd ⟨hrid ▸ hcont, hshape ▸ hsne⟩ hc
          · exact Or.inr ⟨hcont, hrest⟩
    · have hstep : tripsStep keys acc r = acc := by
        rw [tripsStep, if_neg hv]
      rw [hstep]
      constructor
      · rintro (hs | ⟨hcont, hrest⟩)
        · exact Or.inl hs
        · exact Or.inr ⟨hcont, Or.inr hrest⟩
      · rintro (hs | ⟨hcont, ⟨hval, -⟩ | hrest⟩)
        · exact Or.inl hs
        · exact absurd hval hv
        · exact Or.inr ⟨hcont, hrest⟩

theorem mem_insertReplace {α : Type} {m : List (String × α)} {k : String} {v : α}
    {p : String × α} (hp : p ∈ insertReplace m k v) : p ∈ m ∨ p = (k, v) := by
  induction m with
  | nil =>
    rw [show insertReplace [] k v = [(k, v)] from rfl, List.mem_singleton] at hp
    exact Or.inr hp
  | cons a as ih =>
    rw [show insertReplace (a :: as) k v =
      (if a.1 = k then (k, v) :: as else a :: insertReplace as k v) from rfl] at hp
    by_cases ha : a.1 = k
    · rw [if_pos ha, List.mem_cons] at hp
      rcases hp with hp | hp
      · exact Or.inr hp
      · exact Or.inl (List.mem_cons_of_mem _ hp)
    · rw [if_neg ha, List.mem_cons] at hp
      rcases hp with hp | hp
      · exact Or.inl (hp ▸ List.mem_cons_self _ _)
      · rcases ih hp with h | h
        · exact Or.inl (List.mem_cons_of_mem _ h)
        · exact Or.inr h

theorem routesPass1_key_eq (rows : List RouteRow) :
    ∀ p ∈ routesPass1 rows, p.1 = p.2.route_id := by
  rw [routesPass1]
  suffices h : ∀ m : List (String × RouteRow), (∀ p ∈ m, p.1 = p.2.route_id) →
      ∀ p ∈ rows.foldl (fun m r => if r.route_id = "" then m else insertReplace m r.route_id r) m,
        p.1 = p.2.route_id by
    exact h [] (by simp)
  induction rows with
  | nil => intro m hm; exact hm
  | cons r rs ih =>
    intro m hm
    rw [List.foldl_cons]
    apply ih
    by_cases hr : r.route_id = ""
    · rw [if_pos hr]
      exact hm
    · rw [if_neg hr]
      intro p hp
      rcases mem_insertReplace hp with h | h
      · exact hm p h
      · rw [h]

/-- C5: a trip document is emitted for exactly the trip rows with non-empty
`trip_id`, `route_id` and `service_id` — including trips whose `route_id` is
unknown to the pass-1 route map; and every emitted route's `shape_ids` is a
sorted, duplicate-free list containing exactly the non-empty shape_ids of the
valid trip rows that reference that route (so shape-linking is gated on the
route existing in the pass-1 map, while trip emission is not). -/
theorem route_trip_linking_spec :
    ∀ (routeRows : List RouteRow) (tripRows : List TripRow),
      (stream_parse_trips_and_routes routeRows tripRows).2 =
        (tripRows.filter validTripRow).map mkTripDoc ∧
      ∀ rd ∈ (stream_parse_trips_and_routes routeRows tripRows).1,
        rd.shape_ids.Sorted (· ≤ ·) ∧ rd.shape_ids.Nodup ∧
        ∀ s : String, s ∈ rd.shape_ids ↔
          ∃ r ∈ tripRows, validTripRow r = true ∧ r.route_id = rd.route_id ∧
            r.shape_id = s ∧ s ≠ "" := by
  intro routeRows tripRows
  constructor
  · exact tripsPass_snd _ _
  · intro rd hrd
    simp only [stream_parse_trips_and_routes, List.mem_map] at hrd
    obtain ⟨p, hp, rfl⟩ := hrd
    have hkey := routesPass1_key_eq routeRows p hp
    have hshapes : (mkRouteDoc p.2
        ((tripsPass ((routesPass1 routeRows).map (fun q => q.1)) tripRows).1 p.1)).shape_ids =
        List.insertionSort (· ≤ ·)
          ((tripsPass ((routesPass1 routeRows).map (fun q => q.1)) tripRows).1 p.1) := rfl
    have hrid : (mkRouteDoc p.2
        ((tripsPass ((routesPass1 routeRows).map (fun q => q.1)) tripRows).1 p.1)).route_id =
        p.2.route_id := rfl
    refine ⟨?_, ?_, ?_⟩
    · rw [hshapes]
      exact List.sorted_insertionSort _ _
    · rw [hshapes]
      exact ((List.perm_insertionSort _ _).nodup_iff).mpr (tripsPass_fst_nodup _ _ _)
    · intro s
      rw [hshapes, List.mem_insertionSort, tripsPass_fst_mem, hrid, ← hkey]
      have hcont : ((routesPass1 routeRows).map (fun q => q.1)).contains p.1 = true :=
        List.elem_eq_true_of_mem (List.mem_map_of_mem (fun q => q.1) hp)
      constructor
      · rintro ⟨-, hex⟩
        exact hex
      · intro hex
        exact ⟨hcont, hex⟩

theorem route_trip_linking_spec_witness :
    (stream_parse_trips_and_routes routeRowsC5 tripRowsC5).2 =
      (tripRowsC5.filter validTripRow).map mkTripDoc ∧
    mkRouteDoc (rRoute "r1") ["sh2", "sh1"] ∈
      (stream_parse_trips_and_routes routeRowsC5 tripRowsC5).1 ∧
    ("sh1" ∈ (mkRouteDoc (rRoute "r1") ["sh2", "sh1"]).shape_ids ↔
      ∃ r ∈ tripRowsC5, validTripRow r = true ∧
        r.route_id = (mkRouteDoc (rRoute "r1") ["sh2", "sh1"]).route_id ∧
        r.shape_id = "sh1" ∧ "sh1" ≠ "") := by
  have hlist : (stream_parse_trips_and_routes routeRowsC5 tripRowsC5).1 =
      [mkRouteDoc (rRoute "r1") ["sh2", "sh1"]] := rfl
  have hmem : mkRouteDoc (rRoute "r1") ["sh2", "sh1"] ∈
      (stream_parse_trips_and_routes routeRowsC5 tripRowsC5).1 := by
    rw [hlist]
    exact List.mem_singleton.mpr rfl
  have h := route_trip_linking_spec routeRowsC5 tripRowsC5
  exact ⟨h.1, hmem, (h.2 _ hmem).2.2 "sh1"⟩

theorem asciiDigit_char_props {c : Char} (h : isAsciiDigit c = true) :
    isPySpace c = false ∧ c ≠ ':' ∧ c ≠ '-' ∧ c ≠ '+' := by
  refine ⟨?_, ?_, ?_, ?_⟩
  · cases hps : isPySpace c with
    | false => rfl
    | true =>
      exfalso
      simp only [isPySpace, Bool.or_eq_true, decide_eq_true_eq] at hps
      rcases hps with ((((rfl | rfl) | rfl) | rfl) | rfl) | rfl <;> exact absurd h (by decide)
  · intro hc
    rw [hc] at h
    exact absurd h (by decide)
  · intro hc
    rw [hc] at h
    exact absurd h (by decide)
  · intro hc
    rw [hc] at h
    exact absurd h (by decide)

theorem digitsVal_foldl_general :
    ∀ (cs : List Char) (a : Nat),
      cs.foldl (fun x c => 10 * x + digitVal c) a = a * 10 ^ cs.length + digitsValBE cs := by
  intro cs
  induction cs with
  | nil => intro a; simp [digitsValBE]
  | cons c cs ih =>
    intro a
    rw [List.foldl_cons, ih]
    simp only [digitsValBE, List.length_cons]
    ring

theorem digitsVal_eq_valBE (cs : List Char) : digitsVal cs = digitsValBE cs := by
  rw [digitsVal, digitsVal_foldl_general]
  simp

theorem decodeDigitField_eq (s : String) : decodeDigitField s = decodeOptIntDigits s := by
  unfold decodeDigitField decodeOptIntDigits
  by_cases h : s ≠ "" ∧ isDigitsStr s = true
  · rw [if_pos h, if_pos h]
    have hall : ∀ c ∈ s.data, isAsciiDigit c = true := by
      have := h.2
      rw [isDigitsStr, Bool.and_eq_true, List.all_eq_true] at this
      exact this.2
    have hne : s.data ≠ [] := by
      have := h.2
      rw [isDigitsStr, Bool.and_eq_true] at this
      simpa [List.isEmpty_iff] using this.1
    rw [pythonInt_all_digits (fun c hc => ⟨hall c hc, asciiDigit_char_props (hall c hc)⟩) hne]
    rw [digitsVal_eq_valBE]
  · rw [if_neg h, if_neg h]

/-- C8, counterexample: the raw string `"2"` is composed entirely of digits,
yet the trip decoder maps `direction_id = "2"` to absent, not to the integer
2 — the claim's rule does not hold for `direction_id`. -/
theorem optional_int_direction_counterexample :
    isDigitsStr "2" = true ∧ rTripDir2.direction_id = "2" ∧
    (mkTripDoc rTripDir2).direction_id = none :=
  ⟨by decide, rfl, by decide⟩

/-- C8 (amended): `wheelchair_accessible`, `bikes_allowed`, `pickup_type`,
`drop_off_type` and `timepoint` are decoded to the decimal value of the raw
string exactly when it is a non-empty all-digit string, and are absent
otherwise, with `pickup_type`/`drop_off_type` defaulting to 0 and `timepoint`
to absent; `direction_id` however is decoded only from the literal strings
`"0"`/`"1"` (its decimal value there) and is absent for every other string,
digits included. -/
theorem optional_int_field_decoding_amended :
    ∀ (r : TripRow) (q : StopTimeRow),
      (mkTripDoc r).wheelchair_accessible = decodeOptIntDigits r.wheelchair_accessible ∧
      (mkTripDoc r).bikes_allowed = decodeOptIntDigits r.bikes_allowed ∧
      (mkTripDoc r).direction_id =
        (if r.direction_id = "0" ∨ r.direction_id = "1" then
          decodeOptIntDigits r.direction_id
        else none) ∧
      (∀ d : StopTimeDoc, mkStopTimeDoc q = some d →
        d.pickup_type = (decodeOptIntDigits q.pickup_type).getD 0 ∧
        d.drop_off_type = (decodeOptIntDigits q.drop_off_type).getD 0 ∧
        d.timepoint = decodeOptIntDigits q.timepoint) := by
  intro r q
  refine ⟨decodeDigitField_eq _, decodeDigitField_eq _, ?_, ?_⟩
  · show (if r.direction_id = "0" ∨ r.direction_id = "1" then
        pythonInt r.direction_id.data else none) = _
    by_cases h : r.direction_id = "0" ∨ r.direction_id = "1"
    · rw [if_pos h, if_pos h]
      rcases h with h | h <;> rw [h] <;> decide
    · rw [if_neg h, if_neg h]
  · intro d hd
    rw [mkStopTimeDoc] at hd
    split at hd
    · exact absurd hd (by simp)
    · split at hd
      · exact absurd hd (by simp)
      · split at hd
        · have hd' := Option.some.inj hd
          subst hd'
          exact ⟨congrArg (fun o => Option.getD o 0) (decodeDigitField_eq _),
            congrArg (fun o => Option.getD o 0) (decodeDigitField_eq _),
            decodeDigitField_eq _⟩
        · exact absurd hd (by simp)

theorem optional_int_field_decoding_amended_witness :
    mkStopTimeDoc rStopTimeC8 = some stopTimeDocC8 ∧
    stopTimeDocC8.pickup_type = (decodeOptIntDigits rStopTimeC8.pickup_type).getD 0 ∧
    stopTimeDocC8.drop_off_type = (decodeOptIntDigits rStopTimeC8.drop_off_type).getD 0 ∧
    stopTimeDocC8.timepoint = decodeOptIntDigits rStopTimeC8.timepoint := by
  have h := (optional_int_field_decoding_amended rTripDir2 rStopTimeC8).2.2.2
    stopTimeDocC8 (by decide)
  exact ⟨by decide, h.1, h.2.1, h.2.2⟩
